import Mathlib

/-!
# mock-protheus.js: the PCM room-status mock server

A shallow embedding of `src/mock-protheus.js` (an Express application over two
process-wide collections, `quartosPCM` and `usuariosData`) and theorems about
its route handlers.

The program is JavaScript, so the embedding starts with the fragment of the
language the handlers rely on: JSON values, truthiness, `===`, `ToString`,
property lookup through `Object.prototype`, object spread and `parseInt`.
Each handler is then a function from the state and the request to the response
and the next state. `new Date().toISOString()` is an input (`now`, or a clock
indexed by the number of the read).
-/

set_option autoImplicit false

namespace MockProtheus

/-! ## Values -/

/-- The values the handlers compute with: what `JSON.parse` produces, plus
`undefined` (a missing field) and `NaN` (a failed `parseInt`). A number is an
integer of magnitude below `10^21`, which covers the numbers the program
itself computes (a fraction, or a larger number, which JavaScript prints with
an exponent, has no value here); an array carries its elements and the named
properties assigned to it, an object its own properties in enumeration
order. -/
inductive JVal where
  | undefined
  | null
  | bool (b : Bool)
  | num (n : Int)
  | nan
  | str (s : String)
  | arr (xs : List JVal) (props : List (String × JVal))
  | obj (props : List (String × JVal))

mutual
/-- Decision of equality of two values. -/
def JVal.decEq : (a b : JVal) → Decidable (a = b)
  | .undefined, .undefined => isTrue rfl
  | .null, .null => isTrue rfl
  | .bool a, .bool b =>
    if h : a = b then isTrue (h ▸ rfl) else isFalse fun e => h (JVal.bool.inj e)
  | .num a, .num b =>
    if h : a = b then isTrue (h ▸ rfl) else isFalse fun e => h (JVal.num.inj e)
  | .nan, .nan => isTrue rfl
  | .str a, .str b =>
    if h : a = b then isTrue (h ▸ rfl) else isFalse fun e => h (JVal.str.inj e)
  | .arr xs ps, .arr ys qs =>
    match decEqElems xs ys, decEqProps ps qs with
    | isTrue h1, isTrue h2 => isTrue (h1 ▸ h2 ▸ rfl)
    | isFalse h1, _ => isFalse fun e => h1 (JVal.arr.inj e).1
    | _, isFalse h2 => isFalse fun e => h2 (JVal.arr.inj e).2
  | .obj ps, .obj qs =>
    match decEqProps ps qs with
    | isTrue h => isTrue (h ▸ rfl)
    | isFalse h => isFalse fun e => h (JVal.obj.inj e)
  | .undefined, .null | .undefined, .bool _ | .undefined, .num _ | .undefined, .nan
    | .undefined, .str _ | .undefined, .arr _ _ | .undefined, .obj _ => isFalse nofun
  | .null, .undefined | .null, .bool _ | .null, .num _ | .null, .nan | .null, .str _
    | .null, .arr _ _ | .null, .obj _ => isFalse nofun
  | .bool _, .undefined | .bool _, .null | .bool _, .num _ | .bool _, .nan | .bool _, .str _
    | .bool _, .arr _ _ | .bool _, .obj _ => isFalse nofun
  | .num _, .undefined | .num _, .null | .num _, .bool _ | .num _, .nan | .num _, .str _
    | .num _, .arr _ _ | .num _, .obj _ => isFalse nofun
  | .nan, .undefined | .nan, .null | .nan, .bool _ | .nan, .num _ | .nan, .str _
    | .nan, .arr _ _ | .nan, .obj _ => isFalse nofun
  | .str _, .undefined | .str _, .null | .str _, .bool _ | .str _, .num _ | .str _, .nan
    | .str _, .arr _ _ | .str _, .obj _ => isFalse nofun
  | .arr _ _, .undefined | .arr _ _, .null | .arr _ _, .bool _ | .arr _ _, .num _
    | .arr _ _, .nan | .arr _ _, .str _ | .arr _ _, .obj _ => isFalse nofun
  | .obj _, .undefined | .obj _, .null | .obj _, .bool _ | .obj _, .num _ | .obj _, .nan
    | .obj _, .str _ | .obj _, .arr _ _ => isFalse nofun
termination_by structural a => a
/-- Decision of equality of two lists of elements. -/
def decEqElems : (a b : List JVal) → Decidable (a = b)
  | [], [] => isTrue rfl
  | [], _ :: _ => isFalse nofun
  | _ :: _, [] => isFalse nofun
  | x :: r, y :: u =>
    match JVal.decEq x y, decEqElems r u with
    | isTrue h1, isTrue h2 => isTrue (h1 ▸ h2 ▸ rfl)
    | isFalse h1, _ => isFalse fun e => h1 (List.cons.inj e).1
    | _, isFalse h2 => isFalse fun e => h2 (List.cons.inj e).2
termination_by structural a => a
/-- Decision of equality of two property lists. -/
def decEqProps : (a b : List (String × JVal)) → Decidable (a = b)
  | [], [] => isTrue rfl
  | [], _ :: _ => isFalse nofun
  | _ :: _, [] => isFalse nofun
  | (k, x) :: r, (j, y) :: u =>
    if hk : k = j then
      match JVal.decEq x y, decEqProps r u with
      | isTrue h1, isTrue h2 => isTrue (hk ▸ h1 ▸ h2 ▸ rfl)
      | isFalse h1, _ => isFalse fun e => h1 (Prod.mk.inj (List.cons.inj e).1).2
      | _, isFalse h2 => isFalse fun e => h2 (List.cons.inj e).2
    else isFalse fun e => hk (Prod.mk.inj (List.cons.inj e).1).1
termination_by structural a => a
end

instance : DecidableEq JVal := JVal.decEq

/-- Own properties of an object, in enumeration order. -/
abbrev Props := List (String × JVal)

/-- JavaScript `ToBoolean`. -/
def JVal.truthy : JVal → Bool
  | .undefined => false
  | .null => false
  | .bool b => b
  | .num n => n != 0
  | .nan => false
  | .str s => s != ""
  | .arr _ _ => true
  | .obj _ => true

/-- JavaScript `===` between a stored value and a value of the current
request: primitives compare by value, `NaN` equals nothing, and an array or
object of a request is a fresh reference, equal to no stored one. -/
def JVal.strictEq : JVal → JVal → Bool
  | .undefined, .undefined => true
  | .null, .null => true
  | .bool a, .bool b => a == b
  | .num a, .num b => a == b
  | .str a, .str b => a == b
  | _, _ => false

/-- `Array.isArray`. -/
def JVal.isArray : JVal → Bool
  | .arr _ _ => true
  | _ => false

/-- Whether a property list has an own property `k`. (The functions on
property lists never inspect a value, so they are stated for any type of
values.) -/
def hasOwn {α : Type} : List (String × α) → String → Bool
  | [], _ => false
  | (k', _) :: r, k => k' == k || hasOwn r k

/-- The value of own property `k`, if there is one. -/
def getOwn {α : Type} : List (String × α) → String → Option α
  | [], _ => none
  | (k', v) :: r, k => if k' == k then some v else getOwn r k

mutual
/-- JavaScript `ToString` (and `ToPropertyKey`) of a value; `none` is a thrown
`TypeError`. A number prints in decimal, as JavaScript does below `10^21`. An
array joins its elements with commas, `null` and `undefined`
elements giving the empty string. A plain object gives `"[object Object]"`
through `Object.prototype.toString`, unless it has an own `toString` property:
a property of a parsed document is never callable, and `valueOf` then returns
no primitive, so the conversion throws. -/
def JVal.toStr : JVal → Option String
  | .undefined => some "undefined"
  | .null => some "null"
  | .bool b => some (if b then "true" else "false")
  | .num n => some (toString n)
  | .nan => some "NaN"
  | .str s => some s
  | .arr xs _ => joinElems xs
  | .obj ps => if ps.any (fun p => p.1 == "toString") then none else some "[object Object]"
termination_by structural v => v
/-- The body of `Array.prototype.join` with the separator `","`. -/
def joinElems : List JVal → Option String
  | [] => some ""
  | x :: r =>
      match (match x with
             | .undefined => some ""
             | .null => some ""
             | v => JVal.toStr v), joinElems r with
      | some a, some b => some (if r.isEmpty then a else a ++ "," ++ b)
      | _, _ => none
termination_by structural l => l
end

/-- The value of a run of decimal digits. -/
def digitsVal (cs : List Char) : Nat :=
  cs.foldl (fun acc c => acc * 10 + (c.toNat - 48)) 0

/-- Whether a property key is an array index: the canonical decimal form of
an integer below `2^32 - 1`. Such keys enumerate first, in ascending order. -/
def isArrayIndex (k : String) : Bool :=
  match k.data with
  | [] => false
  | [c] => c.isDigit
  | c :: cs => c.isDigit && c != '0' && cs.all Char.isDigit && cs.length ≤ 9
      && decide (digitsVal (c :: cs) < 4294967295)

/-- The numeric value of an array-index key. -/
def indexVal (k : String) : Nat := digitsVal k.data

/-- Creation of a new own property `k`: an array index goes before the first
property that is not an array index or is a larger one, any other key goes
last. -/
def insertNew {α : Type} : List (String × α) → String → α → List (String × α)
  | [], k, v => [(k, v)]
  | (k', v') :: r, k, v =>
      if isArrayIndex k && (!isArrayIndex k' || decide (indexVal k < indexVal k'))
      then (k, v) :: (k', v') :: r
      else (k', v') :: insertNew r k v

/-- Overwriting the value of an existing own property, which keeps its place. -/
def replaceOwn {α : Type} : List (String × α) → String → α → List (String × α)
  | [], _, _ => []
  | (k', v') :: r, k, v => if k' == k then (k', v) :: r else (k', v') :: replaceOwn r k v

/-- Definition of own property `k` with value `v` (`CreateDataProperty`, as in
an object literal or a spread): overwrite in place, or create. -/
def setOwn {α : Type} (ps : List (String × α)) (k : String) (v : α) :
    List (String × α) :=
  if hasOwn ps k then replaceOwn ps k v else insertNew ps k v

/-- The properties `0`, `1`, ... of the elements of an array or the characters
of a string, from index `i` on. -/
def indexed : Nat → List JVal → Props
  | _, [] => []
  | i, x :: r => (toString i, x) :: indexed (i + 1) r

/-- Reading property `STATUS`, `ANDAR` or `CHECKLIST` (names no built-in
prototype defines) of a value; `none` is the `TypeError` of reading a property
of `null` or `undefined`. -/
def getField : JVal → String → Option JVal
  | .undefined, _ => none
  | .null, _ => none
  | .obj ps, k => some ((getOwn ps k).getD .undefined)
  | .arr _ ps, k => some ((getOwn ps k).getD .undefined)
  | _, _ => some .undefined

/-- Assignment `v.k = x` for those names, in sloppy mode: an object or array
gets the property, a primitive is left alone without an error. (The
`TypeError` for `null` and `undefined` is raised by the caller.) -/
def setField : JVal → String → JVal → JVal
  | .obj ps, k, x => .obj (setOwn ps k x)
  | .arr xs ps, k, x => .arr xs (setOwn ps k x)
  | v, _, _ => v

/-- The result of a property read that may reach `Object.prototype`. -/
inductive Ref where
  /-- A data value (`undefined` when the property is nowhere on the chain). -/
  | val (v : JVal)
  /-- A function of `Object.prototype`, such as `constructor` or `toString`. -/
  | builtin (name : String)
  /-- The object `Object.prototype` itself, read through `__proto__`. -/
  | objectPrototype
  deriving DecidableEq

/-- Truthiness of a read: functions and objects are truthy. -/
def Ref.truthy : Ref → Bool
  | .val v => v.truthy
  | .builtin _ => true
  | .objectPrototype => true

/-- What `JSON.stringify` keeps of a read placed in a response: a function is
dropped like `undefined`, `Object.prototype` has no enumerable property. -/
def Ref.json : Ref → JVal
  | .val v => v
  | .builtin _ => .undefined
  | .objectPrototype => .obj []

/-- The own enumerable properties copied by an object spread. A property
list is kept in enumeration order, so copying an object in that order gives
the same list; a string spreads its characters (one property per code
point), an array its elements and then its named properties, every other
value nothing. -/
def spread : Ref → Props
  | .val (.obj ps) => ps
  | .val (.arr xs ps) => indexed 0 xs ++ ps
  | .val (.str s) => indexed 0 (s.data.map fun c => JVal.str (String.singleton c))
  | _ => []

/-- The data properties of `Object.prototype` (all functions); `__proto__`,
its one accessor, is handled apart. -/
def objectPrototypeNames : List String :=
  ["constructor", "__defineGetter__", "__defineSetter__", "hasOwnProperty",
   "__lookupGetter__", "__lookupSetter__", "isPrototypeOf", "propertyIsEnumerable",
   "toString", "valueOf", "toLocaleString"]

/-! ## The room registry `quartosPCM` -/

/-- The object `quartosPCM`: its own properties (room key to room record) and
its prototype, `none` for `Object.prototype` (as after `loadData`) and
`some p` for an ordinary object `p` installed through the `__proto__` setter
(`p` itself having prototype `Object.prototype`). -/
structure Registry where
  own : Props
  proto : Option Props
  deriving DecidableEq

/-- The read `quartosPCM[k]`: own property, then the prototype chain. -/
def Registry.get (r : Registry) (k : String) : Ref :=
  match getOwn r.own k with
  | some v => .val v
  | none =>
    match (match r.proto with
           | some p => getOwn p k
           | none => none) with
    | some v => .val v
    | none =>
      if k == "__proto__" then
        match r.proto with
        | none => .objectPrototype
        | some p => .val (.obj p)
      else if objectPrototypeNames.contains k then .builtin k
      else .val .undefined

/-- The assignment `quartosPCM[k] = v` for a fresh object `v`: an own
property is overwritten; a data property found on the chain, or no property at
all, creates an own property; the `__proto__` accessor of `Object.prototype`
replaces the prototype instead. -/
def Registry.set (r : Registry) (k : String) (v : Props) : Registry :=
  if hasOwn r.own k then { r with own := replaceOwn r.own k (.obj v) }
  else if (match r.proto with
           | some p => hasOwn p k
           | none => false) then { r with own := insertNew r.own k (.obj v) }
  else if k == "__proto__" then { r with proto := some v }
  else { r with own := insertNew r.own k (.obj v) }

/-- `Object.values(quartosPCM)`. -/
def Registry.values (r : Registry) : List JVal := r.own.map Prod.snd

/-- `Object.keys(quartosPCM)`. -/
def Registry.keys (r : Registry) : List String := r.own.map Prod.fst

/-- The keys a `for (const id in quartosPCM)` loop visits: the own keys, then
the enumerable keys of the prototype that no own key shadows. -/
def Registry.forInKeys (r : Registry) : List String :=
  match r.proto with
  | none => r.keys
  | some p => r.keys ++ (p.map Prod.fst).filter fun k => !r.keys.contains k

/-- A response: the HTTP status and the value handed to `res.json`. -/
structure Response where
  status : Nat
  body : JVal
  deriving DecidableEq

/-- The `success` field of a response body. -/
def Response.success (r : Response) : JVal :=
  match r.body with
  | .obj ps => (getOwn ps "success").getD .undefined
  | _ => .undefined

/-- The response of the error-handling middleware, which receives every
exception a handler throws. -/
def internalError : Response :=
  ⟨500, .obj [("success", .bool false), ("error", .str "Erro interno no servidor")]⟩

/-! ## `parseInt` -/

/-- White space and line terminators, which `parseInt` skips at the start. -/
def isStrWhiteSpaceChar (c : Char) : Bool :=
  [0x9, 0xA, 0xB, 0xC, 0xD, 0x20, 0xA0, 0x1680, 0x2000, 0x2001, 0x2002, 0x2003,
   0x2004, 0x2005, 0x2006, 0x2007, 0x2008, 0x2009, 0x200A, 0x2028, 0x2029, 0x202F,
   0x205F, 0x3000, 0xFEFF].contains c.toNat

/-- The value of a character as a digit of the given radix, if it is one. -/
def digitOf (radix : Nat) (c : Char) : Option Nat :=
  let d : Option Nat :=
    if c.isDigit then some (c.toNat - 48)
    else if c.isLower then some (c.toNat - 87)
    else if c.isUpper then some (c.toNat - 55)
    else none
  match d with
  | some n => if n < radix then some n else none
  | none => none

/-- The digits at the start of a string, up to the first character that is
not a digit of the radix. -/
def takeDigits (radix : Nat) : List Char → List Nat
  | [] => []
  | c :: r =>
    match digitOf radix c with
    | some d => d :: takeDigits radix r
    | none => []

/-- JavaScript `parseInt(s)` with no radix argument: skip white space, read a
sign, read `0x` or `0X` as radix 16, and take the longest run of digits; no
digit gives `NaN`. -/
def parseInt (s : String) : JVal :=
  let s1 := s.data.dropWhile isStrWhiteSpaceChar
  let signed : Bool × List Char :=
    match s1 with
    | '-' :: r => (true, r)
    | '+' :: r => (false, r)
    | _ => (false, s1)
  let based : Nat × List Char :=
    match signed.2 with
    | '0' :: 'x' :: r => (16, r)
    | '0' :: 'X' :: r => (16, r)
    | _ => (10, signed.2)
  match takeDigits based.1 based.2 with
  | [] => .nan
  | d :: ds =>
    let n : Nat := (d :: ds).foldl (fun acc x => acc * based.1 + x) 0
    .num (if signed.1 then -(n : Int) else n)

/-- The comparison `v < n` on the result of `parseInt`; false for `NaN`. -/
def numLt (v : JVal) (n : Int) : Bool :=
  match v with
  | .num m => decide (m < n)
  | _ => false

/-- The comparison `v > n` on the result of `parseInt`; false for `NaN`. -/
def numGt (v : JVal) (n : Int) : Bool :=
  match v with
  | .num m => decide (m > n)
  | _ => false

/-! ## Room routes -/

/-- The array `statusValidos` of `POST /api/quartos/atualizar`. -/
def statusValidos : List String := ["Vago limpo", "Vago sujo", "Ocupado"]

/-- The test `statusValidos.includes(status)`: only a string is the same value
as one of the three entries. -/
def includesStatus (status : JVal) : Bool :=
  match status with
  | .str s => statusValidos.contains s
  | _ => false

/-- The 404 body shared by the two update routes. -/
def roomNotFound (k : String) : Response :=
  ⟨404, .obj [("success", .bool false), ("error", .str ("Quarto " ++ k ++ " não existe")),
              ("validFloors", .str "1-9"), ("validRooms", .str "01-22 por andar")]⟩

/-- The handler of `POST /api/quartos/atualizar` on body `{id, status}`. -/
def updateStatus (r : Registry) (id status : JVal) (now : String) : Response × Registry :=
  match id.toStr with
  | none => (internalError, r)
  | some k =>
    if !(r.get k).truthy then (roomNotFound k, r)
    else if !includesStatus status then
      (⟨400, .obj [("success", .bool false), ("error", .str "Status inválido"),
                   ("validStatus", .arr (statusValidos.map JVal.str) [])]⟩, r)
    else
      let quarto := setOwn (setOwn (spread (r.get k)) "STATUS" status)
        "ULTIMA_ATUALIZACAO" (.str now)
      let r2 := r.set k quarto
      (⟨200, .obj [("success", .bool true),
                   ("message", .str ("Quarto " ++ k ++ " atualizado para: "
                      ++ status.toStr.getD "")),
                   ("data", (r2.get k).json)]⟩, r2)

/-- The handler of `POST /api/quartos/atualizar-checklist` on body
`{id, checklist}`. -/
def updateChecklist (r : Registry) (id checklist : JVal) (now : String) :
    Response × Registry :=
  match id.toStr with
  | none => (internalError, r)
  | some k =>
    if !(r.get k).truthy then (roomNotFound k, r)
    else if !checklist.isArray then
      (⟨400, .obj [("success", .bool false),
                   ("error", .str "Checklist deve ser um array")]⟩, r)
    else
      let quarto := setOwn (setOwn (spread (r.get k)) "CHECKLIST" checklist)
        "ULTIMA_ATUALIZACAO" (.str now)
      let r2 := r.set k quarto
      (⟨200, .obj [("success", .bool true),
                   ("message", .str ("Checklist do quarto " ++ k ++ " atualizado")),
                   ("data", (r2.get k).json)]⟩, r2)

/-- The handler of `GET /api/quartos/:id`; the path parameter is a string. -/
def getQuarto (r : Registry) (id : String) : Response :=
  if (r.get id).truthy then
    ⟨200, .obj [("success", .bool true), ("data", (r.get id).json),
                ("message", .str ("Quarto " ++ id ++ " encontrado"))]⟩
  else
    ⟨404, .obj [("success", .bool false),
                ("error", .str ("Quarto " ++ id ++ " não encontrado")),
                ("suggestion", .str "IDs válidos vão de 101-122, 201-222, ..., 901-922")]⟩

/-- The filter `quartos.filter(q => q[k] === x)`; `none` when reading `q[k]`
throws. -/
def filterField (k : String) (x : JVal) : List JVal → Option (List JVal)
  | [] => some []
  | q :: r =>
    match getField q k, filterField k x r with
    | some v, some rest => some (if v.strictEq x then q :: rest else rest)
    | _, _ => none

/-- The handler of `GET /api/quartos` on query `{status, andar}`. The
callback of the second filter converts `andar` for each room, so it throws
only when there is a room to test. -/
def listQuartos (r : Registry) (status andar : JVal) (now : String) : Response :=
  let byStatus : Option (List JVal) :=
    if status.truthy then filterField "STATUS" status r.values else some r.values
  let byAndar : Option (List JVal) :=
    match byStatus with
    | none => none
    | some qs =>
      if andar.truthy then
        match qs with
        | [] => some []
        | _ :: _ =>
          match andar.toStr with
          | none => none
          | some s => filterField "ANDAR" (parseInt s) qs
      else some qs
  match byAndar with
  | none => internalError
  | some qs =>
    ⟨200, .obj [("success", .bool true), ("data", .arr qs []),
                ("total", .num qs.length), ("lastUpdated", .str now)]⟩

/-- The handler of `GET /api/quartos/andar/:numero`. -/
def listByFloor (r : Registry) (numero : String) : Response :=
  let andar := parseInt numero
  if numLt andar 1 || numGt andar 9 then
    ⟨400, .obj [("success", .bool false),
                ("error", .str "Andar inválido. Deve ser entre 1 e 9")]⟩
  else
    match filterField "ANDAR" andar r.values with
    | none => internalError
    | some qs =>
      ⟨200, .obj [("success", .bool true), ("data", .arr qs []),
                  ("total", .num qs.length), ("andar", andar)]⟩

/-- One round of the loop of `POST /api/quartos/reset` for key `id`:
`quartosPCM[id].STATUS = ...; quartosPCM[id].ULTIMA_ATUALIZACAO = ...`. The
record is changed in place, where it is stored (own property or property of
the prototype); `none` is the `TypeError` on a `null` or `undefined` record. -/
def resetOne (r : Registry) (id : String) (now : String) : Option Registry :=
  match r.get id with
  | .val .undefined => none
  | .val .null => none
  | .val v =>
    let v2 := setField (setField v "STATUS" (.str "Vago limpo"))
      "ULTIMA_ATUALIZACAO" (.str now)
    if hasOwn r.own id then some { r with own := replaceOwn r.own id v2 }
    else
      match r.proto with
      | some p => some { r with proto := some (replaceOwn p id v2) }
      | none => some r
  | _ => some r

/-- The loop of `POST /api/quartos/reset` over the keys still to visit; `i`
counts the clock reads. A throw stops the loop and keeps what was already
changed. -/
def resetLoop (clock : Nat → String) : List String → Nat → Registry → Registry × Bool
  | [], _, r => (r, true)
  | id :: rest, i, r =>
    match resetOne r id (clock i) with
    | none => (r, false)
    | some r2 => resetLoop clock rest (i + 1) r2

/-- The handler of `POST /api/quartos/reset`. -/
def resetAll (r : Registry) (clock : Nat → String) : Response × Registry :=
  let keys := r.forInKeys
  match resetLoop clock keys 0 r with
  | (r2, false) => (internalError, r2)
  | (r2, true) =>
    (⟨200, .obj [("success", .bool true),
                 ("message", .str ("Todos os " ++ toString r2.keys.length
                    ++ " quartos resetados para \"Vago limpo\"")),
                 ("timestamp", .str (clock keys.length))]⟩, r2)

/-! ## Loading, seeding and saving the rooms document -/

/-- The record `loadData` creates for room `numero` of floor `andar`. -/
def seedRoom (andar numero : Nat) (now : String) : JVal :=
  .obj [("ID_QUARTO", .num (andar * 100 + numero)), ("STATUS", .str "Vago limpo"),
        ("CHECKLIST", .arr [] []), ("ANDAR", .num andar),
        ("ULTIMA_ATUALIZACAO", .str now)]

/-- The two nested loops of `loadData`: floors 1 to 9, rooms 1 to 22, each
round the assignment `defaultData[andar * 100 + numero] = mk andar numero`. -/
def seedLoop {α : Type} (mk : Nat → Nat → α) : List (String × α) :=
  (List.range' 1 9).foldl (fun acc andar =>
    (List.range' 1 22).foldl (fun acc2 numero =>
      setOwn acc2 (toString (andar * 100 + numero)) (mk andar numero)) acc) []

/-- The object `defaultData` that `loadData` fills; each round reads the
clock once. -/
def defaultData (clock : Nat → String) : Props :=
  seedLoop fun andar numero =>
    seedRoom andar numero (clock ((andar - 1) * 22 + (numero - 1)))

/-- The loop of `loadData` over a loaded document: a record with a falsy
`CHECKLIST` gets an empty one. `none` is the `TypeError` on a `null` record. -/
def backfill : Props → Option Props
  | [] => some []
  | (k, v) :: r =>
    match getField v "CHECKLIST", backfill r with
    | some c, some rest =>
      some ((k, if c.truthy then v else setField v "CHECKLIST" (.arr [] [])) :: rest)
    | _, _ => none

/-- The function `saveData`: the rooms file holds the own properties of the
registry (the write is taken to succeed; the program logs a failure and goes
on). The file is modelled by the document written, before serialisation. -/
def saveData (data : Props) : Option Props := some data

/-- The function `loadData`, from the rooms file (`none`: no file, or one that
cannot be read or parsed; `some d`: a file that parses to the object `d`) to
the registry and the file afterwards. A failed back-fill falls through to the
seeding, like a missing file; the seeded registry is saved. -/
def loadData (file : Option Props) (clock : Nat → String) : Registry × Option Props :=
  match (match file with
         | some d => backfill d
         | none => none) with
  | some d => (⟨d, none⟩, file)
  | none => (⟨defaultData clock, none⟩, saveData (defaultData clock))

/-- The state of the room side of the server: the registry in memory and the
rooms file on disk. -/
structure Store where
  quartosPCM : Registry
  dataFile : Option Props
  deriving DecidableEq

/-- `String.prototype.includes` on characters: whether `sub` starts `s`. -/
def startsWith : List Char → List Char → Bool
  | _, [] => true
  | [], _ :: _ => false
  | c :: r, d :: u => c == d && startsWith r u

/-- `String.prototype.includes`: whether `sub` occurs in `s`. -/
def includesChars : List Char → List Char → Bool
  | [], sub => sub.isEmpty
  | c :: r, sub => startsWith (c :: r) sub || includesChars r sub

/-- The middleware `saveOnUpdate`, applied to the response a handler sends:
the registry is saved when the request is a `POST`, its path includes
`/atualizar` and the body has a truthy `success`. -/
def saveOnUpdate (method path : String) (res : Response × Registry)
    (file : Option Props) : Response × Store :=
  if method == "POST" && includesChars path.data "/atualizar".data && res.1.success.truthy
  then (res.1, ⟨res.2, saveData res.2.own⟩)
  else (res.1, ⟨res.2, file⟩)

/-- Express route matching with its default options: the request path
matches the pattern when it equals it up to the case of ASCII letters, with or
without one trailing slash. -/
def routeMatches (pattern path : String) : Bool :=
  path.data.map Char.toLower == pattern.data
    || path.data.map Char.toLower == pattern.data ++ ['/']

/-- The route `POST /api/quartos/atualizar` on a request whose `req.path` is
`path` (any path that `routeMatches` the pattern reaches the handler, and
`saveOnUpdate` tests the path as requested). -/
def postAtualizarAt (s : Store) (path : String) (id status : JVal) (now : String) :
    Response × Store :=
  saveOnUpdate "POST" path (updateStatus s.quartosPCM id status now) s.dataFile

/-- The route `POST /api/quartos/atualizar`, requested at the path written in
the source. -/
def postAtualizar (s : Store) (id status : JVal) (now : String) : Response × Store :=
  postAtualizarAt s "/api/quartos/atualizar" id status now

/-- The route `POST /api/quartos/atualizar-checklist` on a request whose
`req.path` is `path`. -/
def postAtualizarChecklistAt (s : Store) (path : String) (id checklist : JVal)
    (now : String) : Response × Store :=
  saveOnUpdate "POST" path (updateChecklist s.quartosPCM id checklist now) s.dataFile

/-- The route `POST /api/quartos/atualizar-checklist`, requested at the path
written in the source. -/
def postAtualizarChecklist (s : Store) (id checklist : JVal) (now : String) :
    Response × Store :=
  postAtualizarChecklistAt s "/api/quartos/atualizar-checklist" id checklist now

/-- The route `POST /api/quartos/reset` on a request whose `req.path` is
`path`. -/
def postResetAt (s : Store) (path : String) (clock : Nat → String) : Response × Store :=
  saveOnUpdate "POST" path (resetAll s.quartosPCM clock) s.dataFile

/-- The route `POST /api/quartos/reset`, requested at the path written in the
source. -/
def postReset (s : Store) (clock : Nat → String) : Response × Store :=
  postResetAt s "/api/quartos/reset" clock

/-- The store after start-up from the given rooms file. -/
def startStore (file : Option Props) (clock : Nat → String) : Store :=
  ⟨(loadData file clock).1, (loadData file clock).2⟩

/-- The coordinates `(andar, numero)` of the 198 rooms, floor by floor; the
theorems compare the seeded registry with this list. -/
def seedCoords : List (Nat × Nat) :=
  (List.range' 1 9).flatMap fun a => (List.range' 1 22).map fun n => (a, n)

/-- The key of the room at the given coordinates. -/
def seedKey (p : Nat × Nat) : String := toString (p.1 * 100 + p.2)

/-! ## Users and authentication -/

/-- An element of `usuariosData`; a property the object lacks reads as
`undefined`. -/
structure User where
  email : JVal
  senha : JVal
  role : JVal
  nickname : JVal
  deriving DecidableEq

/-- The array `defaultUsers` of `loadUsers`. -/
def defaultUsers : List User :=
  [⟨.str "admin@goinn.com", .str "admin123", .str "admin", .str "Administrador"⟩,
   ⟨.str "user@goinn.com", .str "user123", .str "user", .str "Usuário"⟩,
   ⟨.str "carlos@goinn.com", .str "carlos123", .str "user", .str "Carlos"⟩,
   ⟨.str "douglas@goinn.com", .str "123", .str "user", .str "Douglas"⟩]

/-- The expression `email.split('@')[0]`: the text before the first `@`.
Only a string has a `split` method; `none` is the `TypeError` otherwise. -/
def localPart (email : JVal) : Option JVal :=
  match email with
  | .str s => some (.str (String.mk (s.data.takeWhile fun c => c != '@')))
  | _ => none

/-- The expression `nickname || email.split('@')[0]`. -/
def nicknameOr (nickname email : JVal) : Option JVal :=
  if nickname.truthy then some nickname else localPart email

/-- `usuariosData.find(pred)`. -/
def findUser (pred : User → Bool) : List User → Option User
  | [] => none
  | u :: r => if pred u then some u else findUser pred r

/-- The handler of `POST /api/auth/login` on body `{email, senha}`. -/
def login (users : List User) (email senha : JVal) : Response :=
  match findUser (fun u => u.email.strictEq email && u.senha.strictEq senha) users with
  | some usuario =>
    match nicknameOr usuario.nickname usuario.email with
    | none => internalError
    | some nick =>
      ⟨200, .obj [("success", .bool true),
                  ("user", .obj [("email", usuario.email), ("role", usuario.role),
                                 ("nickname", nick)]),
                  ("token", usuario.email)]⟩
  | none =>
    ⟨401, .obj [("success", .bool false), ("error", .str "Credenciais inválidas")]⟩

/-- The handler of `POST /api/auth/register` on body `{email, senha,
nickname}`, with the user list afterwards (which `saveUsers` also writes to
the users file). -/
def register (users : List User) (email senha nickname : JVal) :
    Response × List User :=
  if !email.truthy || !senha.truthy then
    (⟨400, .obj [("success", .bool false),
                 ("error", .str "E-mail e senha são obrigatórios")]⟩, users)
  else if users.any fun u => u.email.strictEq email then
    (⟨400, .obj [("success", .bool false), ("error", .str "E-mail já cadastrado")]⟩, users)
  else
    match nicknameOr nickname email with
    | none => (internalError, users)
    | some nick =>
      (⟨200, .obj [("success", .bool true),
                   ("user", .obj [("email", email), ("role", .str "user"),
                                  ("nickname", nick)]),
                   ("token", email)]⟩,
       users ++ [⟨email, senha, .str "user", nick⟩])

/-- The middleware `authenticate` on the `Authorization` header (`none` when
the request has none): the response that ends the request, or the user put in
`req.user`. -/
def authenticate (users : List User) (authorization : Option String) :
    Except Response User :=
  match authorization with
  | none =>
    .error ⟨401, .obj [("success", .bool false), ("error", .str "Token não fornecido")]⟩
  | some token =>
    if token == "" then
      .error ⟨401, .obj [("success", .bool false), ("error", .str "Token não fornecido")]⟩
    else
      match findUser (fun u => u.email.strictEq (.str token)) users with
      | none =>
        .error ⟨403, .obj [("success", .bool false), ("error", .str "Token inválido")]⟩
      | some user => .ok user

/-- The guard every admin route starts with, after `authenticate`:
`if (req.user.role !== 'admin') return res.status(403)...`. -/
def requireAdmin (users : List User) (authorization : Option String) :
    Except Response User :=
  match authenticate users authorization with
  | .error res => .error res
  | .ok user =>
    if !user.role.strictEq (.str "admin") then
      .error ⟨403, .obj [("success", .bool false), ("error", .str "Acesso negado")]⟩
    else .ok user

/-- The assignment `user.nickname = nickname` on the first user with the
given e-mail, the user `usuariosData.find` returns. -/
def setNickname (email nickname : JVal) : List User → List User
  | [] => []
  | u :: r =>
    if u.email.strictEq email then { u with nickname := nickname } :: r
    else u :: setNickname email nickname r

/-- The route `POST /api/admin/users/update-nickname` on body `{email,
nickname}`, with the user list afterwards. The nickname is assigned before
the message is built, so a message that throws leaves it assigned. -/
def updateNickname (users : List User) (authorization : Option String)
    (email nickname : JVal) : Response × List User :=
  match requireAdmin users authorization with
  | .error res => (res, users)
  | .ok _ =>
    match findUser (fun u => u.email.strictEq email) users with
    | none =>
      (⟨404, .obj [("success", .bool false), ("error", .str "Usuário não encontrado")]⟩,
       users)
    | some _ =>
      match email.toStr, nickname.toStr with
      | some e, some n =>
        (⟨200, .obj [("success", .bool true),
            ("message", .str ("Apelido de " ++ e ++ " atualizado para \"" ++ n ++ "\""))]⟩,
         setNickname email nickname users)
      | _, _ => (internalError, setNickname email nickname users)

/-- The `usuariosData.map(...)` of `GET /api/admin/users`, reading the clock
once per user from read `i` on; `none` when a nickname fallback throws. -/
def userViews (clock : Nat → String) : List User → Nat → Option (List JVal)
  | [], _ => some []
  | u :: r, i =>
    match nicknameOr u.nickname u.email, userViews clock r (i + 1) with
    | some nick, some rest =>
      some (.obj [("email", u.email), ("role", u.role), ("nickname", nick),
                  ("createdAt", .str (clock i))] :: rest)
    | _, _ => none

/-- The route `GET /api/admin/users`. -/
def listUsers (users : List User) (authorization : Option String)
    (clock : Nat → String) : Response :=
  match requireAdmin users authorization with
  | .error res => res
  | .ok _ =>
    match userViews clock users 0 with
    | none => internalError
    | some views => ⟨200, .obj [("success", .bool true), ("data", .arr views [])]⟩

/-! ## Call sequences and the concrete states the theorems evaluate -/

/-- A call of one of the three mutating room routes, with its request body
and the clock it reads. -/
inductive Call where
  | updateStatus (id status : JVal) (now : String)
  | updateChecklist (id checklist : JVal) (now : String)
  | resetAll (clock : Nat → String)

/-- The registry after one call. -/
def Call.apply (r : Registry) : Call → Registry
  | .updateStatus id status now => (MockProtheus.updateStatus r id status now).2
  | .updateChecklist id checklist now => (MockProtheus.updateChecklist r id checklist now).2
  | .resetAll clock => (MockProtheus.resetAll r clock).2

/-- The registry after a sequence of calls, first call first. -/
def runCalls (r : Registry) (calls : List Call) : Registry :=
  calls.foldl Call.apply r

/-- A clock that always reads the same instant. -/
def fixedClock (t : String) : Nat → String := fun _ => t

/-- The store after a start-up with no rooms file, at a fixed instant. -/
def seededStore : Store := startStore none (fixedClock "2025-01-01T00:00:00.000Z")

/-- A store whose rooms file and registry hold room 101 alone. -/
def oneRoomStore : Store :=
  startStore (some [("101", seedRoom 1 1 "2025-01-01T00:00:00.000Z")]) (fixedClock "t")

/-- The user list after two requests on the default users: a registration
with the number 5 as e-mail and the nickname `"n"`, then an administrator's
`POST /api/admin/users/update-nickname` that sets that nickname to `""`. -/
def brokenNicknameUsers : List User :=
  (updateNickname (register defaultUsers (.num 5) (.str "x") (.str "n")).2
    (some "admin@goinn.com") (.num 5) (.str "")).2

/-! ## Property lists -/

theorem hasOwn_eq_isSome {α : Type} (ps : List (String × α)) (k : String) :
    hasOwn ps k = (getOwn ps k).isSome := by
  induction ps with
  | nil => rfl
  | cons p r ih =>
    obtain ⟨k2, v2⟩ := p
    simp only [hasOwn, getOwn]
    by_cases h : k2 = k <;> simp [h, ih]

theorem hasOwn_of_getOwn {α : Type} {ps : List (String × α)} {k : String} {v : α}
    (h : getOwn ps k = some v) : hasOwn ps k = true := by
  rw [hasOwn_eq_isSome, h]; rfl

theorem getOwn_replaceOwn_self {α : Type} (ps : List (String × α)) (k : String) (v : α)
    (h : hasOwn ps k = true) : getOwn (replaceOwn ps k v) k = some v := by
  induction ps with
  | nil => simp [hasOwn] at h
  | cons p r ih =>
    obtain ⟨k2, v2⟩ := p
    by_cases e : k2 = k
    · simp [replaceOwn, getOwn, e]
    · simp only [hasOwn, Bool.or_eq_true, beq_iff_eq, e, false_or] at h
      simp [replaceOwn, getOwn, e, ih h]

theorem getOwn_replaceOwn_ne {α : Type} (ps : List (String × α)) (k k2 : String) (v : α)
    (h : k2 ≠ k) : getOwn (replaceOwn ps k v) k2 = getOwn ps k2 := by
  induction ps with
  | nil => rfl
  | cons p r ih =>
    obtain ⟨k3, v3⟩ := p
    by_cases e : k3 = k
    · subst e
      have : ¬ k3 = k2 := fun e2 => h e2.symm
      simp [replaceOwn, getOwn, this]
    · by_cases e2 : k3 = k2
      · subst e2
        simp [replaceOwn, getOwn, e]
      · simp [replaceOwn, getOwn, e, e2, ih]

theorem keys_replaceOwn {α : Type} (ps : List (String × α)) (k : String) (v : α) :
    (replaceOwn ps k v).map Prod.fst = ps.map Prod.fst := by
  induction ps with
  | nil => rfl
  | cons p r ih =>
    obtain ⟨k2, v2⟩ := p
    by_cases e : k2 = k <;> simp [replaceOwn, e, ih]

theorem replaceOwn_replaceOwn {α : Type} (ps : List (String × α)) (k : String) (v w : α) :
    replaceOwn (replaceOwn ps k v) k w = replaceOwn ps k w := by
  induction ps with
  | nil => rfl
  | cons p r ih =>
    obtain ⟨k2, v2⟩ := p
    by_cases e : k2 = k <;> simp [replaceOwn, e, ih]

theorem replaceOwn_same {α : Type} (ps : List (String × α)) (k : String) (v : α)
    (h : getOwn ps k = some v) : replaceOwn ps k v = ps := by
  induction ps with
  | nil => rfl
  | cons p r ih =>
    obtain ⟨k2, v2⟩ := p
    by_cases e : k2 = k
    · simp only [getOwn, e, beq_self_eq_true, if_true, Option.some.injEq] at h
      simp [replaceOwn, e, h]
    · simp only [getOwn, beq_iff_eq, e, if_false] at h
      simp [replaceOwn, e, ih h]

theorem getOwn_insertNew_self {α : Type} (ps : List (String × α)) (k : String) (v : α)
    (h : hasOwn ps k = false) : getOwn (insertNew ps k v) k = some v := by
  induction ps with
  | nil => simp [insertNew, getOwn]
  | cons p r ih =>
    obtain ⟨k2, v2⟩ := p
    simp only [hasOwn, Bool.or_eq_false_iff, beq_eq_false_iff_ne, ne_eq] at h
    simp only [insertNew]
    split
    · simp [getOwn]
    · simp [getOwn, h.1, ih h.2]

theorem getOwn_insertNew_ne {α : Type} (ps : List (String × α)) (k k2 : String) (v : α)
    (h : k2 ≠ k) : getOwn (insertNew ps k v) k2 = getOwn ps k2 := by
  have hk : ¬ k = k2 := fun e => h e.symm
  induction ps with
  | nil => simp [insertNew, getOwn, hk]
  | cons p r ih =>
    obtain ⟨k3, v3⟩ := p
    simp only [insertNew]
    split
    · simp [getOwn, hk]
    · by_cases e : k3 = k2 <;> simp [getOwn, e, ih]

theorem getOwn_setOwn_self {α : Type} (ps : List (String × α)) (k : String) (v : α) :
    getOwn (setOwn ps k v) k = some v := by
  unfold setOwn
  split
  · next h => exact getOwn_replaceOwn_self ps k v h
  · next h => exact getOwn_insertNew_self ps k v (by simpa using h)

theorem getOwn_setOwn_ne {α : Type} (ps : List (String × α)) (k k2 : String) (v : α)
    (h : k2 ≠ k) : getOwn (setOwn ps k v) k2 = getOwn ps k2 := by
  unfold setOwn
  split
  · exact getOwn_replaceOwn_ne ps k k2 v h
  · exact getOwn_insertNew_ne ps k k2 v h

theorem setOwn_same {α : Type} (ps : List (String × α)) (k : String) (v : α)
    (h : getOwn ps k = some v) : setOwn ps k v = ps := by
  unfold setOwn
  rw [if_pos (hasOwn_of_getOwn h)]
  exact replaceOwn_same ps k v h

/-! ## The registry -/

theorem Registry.get_own {r : Registry} {k : String} {v : JVal}
    (h : getOwn r.own k = some v) : r.get k = .val v := by
  simp [Registry.get, h]

theorem Registry.set_own {r : Registry} {k : String} (v : Props)
    (h : hasOwn r.own k = true) : r.set k v = ⟨replaceOwn r.own k (.obj v), r.proto⟩ := by
  simp [Registry.set, h]

theorem includesStatus_of_mem {s : String} (h : s ∈ statusValidos) :
    includesStatus (.str s) = true := by
  simp only [includesStatus, List.contains_iff_exists_mem_beq]
  exact ⟨s, h, by simp⟩

/-- The effect of a status update on a room that is an own property. -/
theorem updateStatus_own (r : Registry) (id : JVal) (k s now : String) (room : Props)
    (hk : id.toStr = some k) (hroom : getOwn r.own k = some (.obj room))
    (hs : s ∈ statusValidos) :
    updateStatus r id (.str s) now
      = (⟨200, .obj [("success", .bool true),
            ("message", .str ("Quarto " ++ k ++ " atualizado para: " ++ s)),
            ("data", .obj (setOwn (setOwn room "STATUS" (.str s))
              "ULTIMA_ATUALIZACAO" (.str now)))]⟩,
         ⟨replaceOwn r.own k (.obj (setOwn (setOwn room "STATUS" (.str s))
              "ULTIMA_ATUALIZACAO" (.str now))), r.proto⟩) := by
  have hget : r.get k = .val (.obj room) := Registry.get_own hroom
  have hhas : hasOwn r.own k = true := hasOwn_of_getOwn hroom
  simp only [updateStatus, hk, hget, Ref.truthy, JVal.truthy, includesStatus_of_mem hs,
    spread, Registry.set_own _ hhas, Bool.not_true, Bool.false_eq_true, if_false]
  have h2 : Registry.get ⟨replaceOwn r.own k (.obj (setOwn (setOwn room "STATUS" (.str s))
      "ULTIMA_ATUALIZACAO" (.str now))), r.proto⟩ k
      = .val (.obj (setOwn (setOwn room "STATUS" (.str s)) "ULTIMA_ATUALIZACAO" (.str now))) :=
    Registry.get_own (getOwn_replaceOwn_self _ _ _ hhas)
  rw [h2]
  rfl

/-! ## Seeding -/

theorem insertNew_append {α : Type} (ps : List (String × α)) (k : String) (v : α)
    (h : ∀ p ∈ ps, isArrayIndex p.1 = true
      ∧ (isArrayIndex k = true → indexVal p.1 < indexVal k)) :
    insertNew ps k v = ps ++ [(k, v)] := by
  induction ps with
  | nil => rfl
  | cons p r ih =>
    obtain ⟨k2, v2⟩ := p
    have h2 : isArrayIndex k2 = true ∧ (isArrayIndex k = true → indexVal k2 < indexVal k) :=
      h (k2, v2) (List.mem_cons_self _ _)
    have hc : (isArrayIndex k && (!isArrayIndex k2 || decide (indexVal k < indexVal k2)))
        = false := by
      cases hk : isArrayIndex k with
      | false => rfl
      | true =>
        have := h2.2 hk
        simp only [h2.1, Bool.not_true, Bool.false_or, Bool.true_and, decide_eq_false_iff_not]
        omega
    simp only [insertNew, hc, Bool.false_eq_true, if_false, List.cons_append]
    rw [ih fun p hp => h p (List.mem_cons_of_mem _ hp)]

theorem insertNew_append_of_not_index {α : Type} (ps : List (String × α)) (k : String)
    (v : α) (hk : isArrayIndex k = false) (h : ∀ p ∈ ps, isArrayIndex p.1 = true) :
    insertNew ps k v = ps ++ [(k, v)] :=
  insertNew_append ps k v fun p hp => ⟨h p hp, fun e => by rw [hk] at e; cases e⟩


theorem getOwn_eq_none {α : Type} (ps : List (String × α)) (k : String)
    (h : ∀ p ∈ ps, p.1 ≠ k) : getOwn ps k = none := by
  induction ps with
  | nil => rfl
  | cons p r ih =>
    obtain ⟨k2, v2⟩ := p
    have h2 : k2 ≠ k := h (k2, v2) (List.mem_cons_self _ _)
    simp only [getOwn, beq_iff_eq, h2, if_false]
    exact ih fun p hp => h p (List.mem_cons_of_mem _ hp)

theorem hasOwn_eq_false {α : Type} (ps : List (String × α)) (k : String)
    (h : ∀ p ∈ ps, p.1 ≠ k) : hasOwn ps k = false := by
  rw [hasOwn_eq_isSome, getOwn_eq_none ps k h]; rfl

/-- An array-index key larger than every key of a list of array-index keys
is created at the end. -/
theorem setOwn_append {α : Type} (ps : List (String × α)) (k : String) (v : α)
    (h : ∀ p ∈ ps, isArrayIndex p.1 = true ∧ indexVal p.1 < indexVal k) :
    setOwn ps k v = ps ++ [(k, v)] := by
  have hno : hasOwn ps k = false :=
    hasOwn_eq_false ps k fun p hp e => by
      have := (h p hp).2
      rw [e] at this
      omega
  simp only [setOwn, hno, Bool.false_eq_true, if_false]
  exact insertNew_append ps k v fun p hp => ⟨(h p hp).1, fun _ => (h p hp).2⟩

/-- A loop of assignments with array-index keys in ascending order appends
its entries one by one. -/
theorem foldl_setOwn_ascending {α γ : Type} (key : γ → Nat) (mk : γ → α) (l : List γ)
    (acc : List (String × α))
    (hT : ∀ x ∈ l, isArrayIndex (toString (key x)) = true
      ∧ indexVal (toString (key x)) = key x)
    (hasc : l.Pairwise fun x y => key x < key y)
    (hacc : ∀ p ∈ acc, isArrayIndex p.1 = true ∧ ∀ x ∈ l, indexVal p.1 < key x) :
    l.foldl (fun a x => setOwn a (toString (key x)) (mk x)) acc
      = acc ++ l.map fun x => (toString (key x), mk x) := by
  induction l generalizing acc with
  | nil => simp
  | cons x r ih =>
    rw [List.pairwise_cons] at hasc
    have hx := hT x (List.mem_cons_self _ _)
    rw [List.foldl_cons, setOwn_append acc _ _ (fun p hp =>
      ⟨(hacc p hp).1, by rw [hx.2]; exact (hacc p hp).2 x (List.mem_cons_self _ _)⟩)]
    rw [ih (acc ++ [(toString (key x), mk x)])
      (fun y hy => hT y (List.mem_cons_of_mem _ hy)) hasc.2]
    · simp
    · intro p hp
      rcases List.mem_append.mp hp with h | h
      · exact ⟨(hacc p h).1, fun y hy => (hacc p h).2 y (List.mem_cons_of_mem _ hy)⟩
      · rw [List.mem_singleton] at h
        subst h
        exact ⟨hx.1, fun y hy => by rw [hx.2]; exact hasc.1 y hy⟩

/-- Two nested loops are one loop over the pairs. -/
theorem foldl_nested {σ : Type} (F : σ → Nat → Nat → σ) (l1 l2 : List Nat) (init : σ) :
    l1.foldl (fun acc a => l2.foldl (fun acc2 n => F acc2 a n) acc) init
      = (l1.flatMap fun a => l2.map fun n => (a, n)).foldl (fun acc p => F acc p.1 p.2)
          init := by
  induction l1 generalizing init with
  | nil => rfl
  | cons a r ih =>
    rw [List.foldl_cons, ih, List.flatMap_cons, List.foldl_append, List.foldl_map]

theorem mem_seedCoords (p : Nat × Nat) :
    p ∈ seedCoords ↔ (1 ≤ p.1 ∧ p.1 ≤ 9) ∧ (1 ≤ p.2 ∧ p.2 ≤ 22) := by
  obtain ⟨a, n⟩ := p
  simp only [seedCoords, List.mem_flatMap, List.mem_map, List.mem_range'_1, Prod.mk.injEq]
  constructor
  · rintro ⟨a2, ha, n2, hn, rfl, rfl⟩
    omega
  · rintro ⟨ha, hn⟩
    exact ⟨a, by omega, n, by omega, rfl, rfl⟩

/-- The keys of the rooms are array indices, read back as the room number. -/
theorem seedKey_index : ∀ p ∈ seedCoords,
    isArrayIndex (toString (p.1 * 100 + p.2)) = true
    ∧ indexVal (toString (p.1 * 100 + p.2)) = p.1 * 100 + p.2 := by
  decide!

theorem seedCoords_ascending :
    seedCoords.Pairwise fun x y => x.1 * 100 + x.2 < y.1 * 100 + y.2 := by
  unfold seedCoords
  rw [List.pairwise_flatMap]
  constructor
  · intro a _
    rw [List.pairwise_map]
    exact (List.pairwise_lt_range' 1 22).imp fun {x y} h => by
      show a * 100 + x < a * 100 + y
      omega
  · exact (List.pairwise_lt_range' 1 9).imp fun {a b} h => by
      intro x hx y hy
      obtain ⟨n, hn, rfl⟩ := List.mem_map.mp hx
      obtain ⟨m, hm, rfl⟩ := List.mem_map.mp hy
      rw [List.mem_range'_1] at hn hm
      show a * 100 + n < b * 100 + m
      omega

theorem seedCoords_length : seedCoords.length = 198 := by decide!

/-- The seeding loops store one entry per room, in the order of
`seedCoords`. -/
theorem seedLoop_eq {α : Type} (mk : Nat → Nat → α) :
    seedLoop mk = seedCoords.map fun p => (seedKey p, mk p.1 p.2) := by
  unfold seedLoop
  rw [foldl_nested (fun acc a n => setOwn acc (toString (a * 100 + n)) (mk a n))]
  have h := foldl_setOwn_ascending (fun p : Nat × Nat => p.1 * 100 + p.2)
    (fun p => mk p.1 p.2) seedCoords [] seedKey_index seedCoords_ascending
    (fun p hp => by cases hp)
  simpa [seedCoords, seedKey] using h

theorem seedKey_injective (p q : Nat × Nat) (hp : p ∈ seedCoords) (hq : q ∈ seedCoords)
    (h : seedKey p = seedKey q) : p = q := by
  have e : p.1 * 100 + p.2 = q.1 * 100 + q.2 := by
    rw [← (seedKey_index p hp).2, ← (seedKey_index q hq).2]
    unfold seedKey at h
    rw [h]
  rw [mem_seedCoords] at hp hq
  obtain ⟨a, n⟩ := p
  obtain ⟨b, m⟩ := q
  simp only [Prod.mk.injEq] at *
  omega

theorem getOwn_map_key {α γ : Type} (kf : γ → String) (val : γ → α) (l : List γ) (y : γ)
    (hy : y ∈ l) (hinj : ∀ x ∈ l, kf x = kf y → x = y) :
    getOwn (l.map fun x => (kf x, val x)) (kf y) = some (val y) := by
  induction l with
  | nil => cases hy
  | cons x r ih =>
    by_cases e : kf x = kf y
    · have := hinj x (List.mem_cons_self _ _) e
      subst this
      simp [getOwn]
    · have hyr : y ∈ r := by
        rcases List.mem_cons.mp hy with h | h
        · exact absurd (by rw [h]) e
        · exact h
      simp only [List.map_cons, getOwn, beq_iff_eq, e, if_false]
      exact ih hyr fun x hx => hinj x (List.mem_cons_of_mem _ hx)

theorem loadData_none (clock : Nat → String) :
    loadData none clock = (⟨defaultData clock, none⟩, saveData (defaultData clock)) := rfl

/-- The record the seeding stores under the key of room `n` of floor `f`. -/
theorem defaultData_get (clock : Nat → String) (f n : Nat)
    (hf1 : 1 ≤ f) (hf9 : f ≤ 9) (hn1 : 1 ≤ n) (hn22 : n ≤ 22) :
    getOwn (defaultData clock) (toString (f * 100 + n))
      = some (.obj [("ID_QUARTO", .num ((f * 100 + n : Nat) : Int)),
          ("STATUS", .str "Vago limpo"), ("CHECKLIST", .arr [] []), ("ANDAR", .num (f : Int)),
          ("ULTIMA_ATUALIZACAO", .str (clock ((f - 1) * 22 + (n - 1))))]) := by
  have hmem : (f, n) ∈ seedCoords := (mem_seedCoords (f, n)).mpr ⟨⟨hf1, hf9⟩, hn1, hn22⟩
  unfold defaultData
  rw [seedLoop_eq]
  exact getOwn_map_key seedKey
    (fun p => seedRoom p.1 p.2 (clock ((p.1 - 1) * 22 + (p.2 - 1)))) seedCoords (f, n) hmem
    (fun x hx e => seedKey_injective x (f, n) hx hmem e)

theorem defaultData_keys (clock : Nat → String) :
    (defaultData clock).map Prod.fst = seedCoords.map seedKey := by
  unfold defaultData
  rw [seedLoop_eq, List.map_map]
  rfl

theorem defaultData_values (clock : Nat → String) :
    ∀ v ∈ (defaultData clock).map Prod.snd, ∃ ps, v = JVal.obj ps := by
  unfold defaultData
  rw [seedLoop_eq, List.map_map]
  intro v hv
  obtain ⟨p, _, rfl⟩ := List.mem_map.mp hv
  exact ⟨_, rfl⟩

/-- A key that is not an array index is no key of the seeded document. -/
theorem defaultData_get_none (clock : Nat → String) (k : String)
    (hk : isArrayIndex k = false) : getOwn (defaultData clock) k = none := by
  apply getOwn_eq_none
  intro p hp e
  have hmem : p.1 ∈ (defaultData clock).map Prod.fst := List.mem_map_of_mem _ hp
  rw [defaultData_keys] at hmem
  obtain ⟨q, hq, hqe⟩ := List.mem_map.mp hmem
  have := (seedKey_index q hq).1
  unfold seedKey at hqe
  rw [hqe, e, hk] at this
  cases this

theorem seedKeys_eq :
    seedCoords.map seedKey
      = (List.range' 1 9).flatMap fun a =>
          (List.range' 1 22).map fun m => toString (a * 100 + m) := by
  simp only [seedCoords, List.map_flatMap, List.map_map]
  rfl

theorem seedKeys_nodup : (seedCoords.map seedKey).Nodup := by
  rw [List.nodup_map_iff_inj_on]
  · intro x hx y hy e
    exact seedKey_injective x y hx hy e
  · exact (seedCoords_ascending.imp fun {a b} h e => by rw [e] at h; omega)

/-- C1: with no rooms file, `loadData` returns a registry with prototype
`Object.prototype` whose keys are exactly the 198 distinct keys
`andar * 100 + numero` for floors 1 to 9 and rooms 1 to 22, and the record of
room `n` of floor `f` has that `ID_QUARTO`, `ANDAR = f`, `STATUS = "Vago
limpo"` and an empty `CHECKLIST`. -/
theorem loadData_seeds_all_rooms (clock : Nat → String) (f n : Nat)
    (hf1 : 1 ≤ f) (hf9 : f ≤ 9) (hn1 : 1 ≤ n) (hn22 : n ≤ 22) :
    (loadData none clock).1.proto = none
    ∧ (loadData none clock).1.keys
        = ((List.range' 1 9).flatMap fun a =>
            (List.range' 1 22).map fun m => toString (a * 100 + m))
    ∧ (loadData none clock).1.keys.length = 198
    ∧ (loadData none clock).1.keys.Nodup
    ∧ ∃ room : Props,
        getOwn (loadData none clock).1.own (toString (f * 100 + n)) = some (.obj room)
        ∧ getOwn room "ID_QUARTO" = some (.num ((f * 100 + n : Nat) : Int))
        ∧ getOwn room "ANDAR" = some (.num (f : Int))
        ∧ getOwn room "STATUS" = some (.str "Vago limpo")
        ∧ getOwn room "CHECKLIST" = some (.arr [] []) := by
  have hkeys : (loadData none clock).1.keys = seedCoords.map seedKey := by
    rw [loadData_none]
    simp only [Registry.keys]
    exact defaultData_keys clock
  refine ⟨rfl, by rw [hkeys, seedKeys_eq], ?_, by rw [hkeys]; exact seedKeys_nodup, ?_⟩
  · rw [hkeys, List.length_map, seedCoords_length]
  · refine ⟨[("ID_QUARTO", .num ((f * 100 + n : Nat) : Int)), ("STATUS", .str "Vago limpo"),
      ("CHECKLIST", .arr [] []), ("ANDAR", .num (f : Int)),
      ("ULTIMA_ATUALIZACAO", .str (clock ((f - 1) * 22 + (n - 1))))], ?_, rfl, rfl, rfl, rfl⟩
    rw [loadData_none]
    dsimp only
    exact defaultData_get clock f n hf1 hf9 hn1 hn22

/-- Witness of C1: room 7 of floor 3, at a fixed clock. -/
theorem loadData_seeds_all_rooms_witness :
    (loadData none (fixedClock "t")).1.proto = none
    ∧ (loadData none (fixedClock "t")).1.keys
        = ((List.range' 1 9).flatMap fun a =>
            (List.range' 1 22).map fun m => toString (a * 100 + m))
    ∧ (loadData none (fixedClock "t")).1.keys.length = 198
    ∧ (loadData none (fixedClock "t")).1.keys.Nodup
    ∧ ∃ room : Props,
        getOwn (loadData none (fixedClock "t")).1.own (toString (3 * 100 + 7))
          = some (.obj room)
        ∧ getOwn room "ID_QUARTO" = some (.num ((3 * 100 + 7 : Nat) : Int))
        ∧ getOwn room "ANDAR" = some (.num ((3 : Nat) : Int))
        ∧ getOwn room "STATUS" = some (.str "Vago limpo")
        ∧ getOwn room "CHECKLIST" = some (.arr [] []) :=
  loadData_seeds_all_rooms (fixedClock "t") 3 7 (by decide) (by decide) (by decide)
    (by decide)

/-- Every key of the seeded document is an array index. -/
theorem defaultData_keys_index (clock : Nat → String) :
    ∀ p ∈ defaultData clock, isArrayIndex p.1 = true := by
  intro p hp
  have hmem : p.1 ∈ (defaultData clock).map Prod.fst := List.mem_map_of_mem _ hp
  rw [defaultData_keys] at hmem
  obtain ⟨q, hq, hqe⟩ := List.mem_map.mp hmem
  rw [← hqe]
  exact (seedKey_index q hq).1

theorem defaultData_length (clock : Nat → String) : (defaultData clock).length = 198 := by
  have h := congrArg List.length (defaultData_keys clock)
  simpa [seedCoords_length] using h

/-- What the theorems use of the seeded store: its registry has prototype
`Object.prototype` and 198 own properties, all with array-index keys and
object values, among them room 101 and no `constructor`, and the rooms file
holds the same document. -/
theorem seededStore_facts :
    ∃ own : Props,
      seededStore = ⟨⟨own, none⟩, some own⟩
      ∧ own.length = 198
      ∧ getOwn own "constructor" = none
      ∧ (∀ p ∈ own, isArrayIndex p.1 = true)
      ∧ (∀ v ∈ own.map Prod.snd, ∃ ps, v = JVal.obj ps)
      ∧ getOwn own "101"
          = some (.obj [("ID_QUARTO", .num 101), ("STATUS", .str "Vago limpo"),
              ("CHECKLIST", .arr [] []), ("ANDAR", .num 1),
              ("ULTIMA_ATUALIZACAO", .str "2025-01-01T00:00:00.000Z")]) := by
  refine ⟨defaultData (fixedClock "2025-01-01T00:00:00.000Z"), ?_, defaultData_length _,
    defaultData_get_none _ _ (by decide), defaultData_keys_index _, defaultData_values _, ?_⟩
  · unfold seededStore startStore
    rw [loadData_none]
    rfl
  · have h := defaultData_get (fixedClock "2025-01-01T00:00:00.000Z") 1 1 (by decide)
      (by decide) (by decide) (by decide)
    have e : toString (1 * 100 + 1) = "101" := by decide
    rw [e] at h
    rw [h]
    rfl

theorem saveOnUpdate_failure (method path : String) (res : Response × Registry)
    (file : Option Props) (h : res.1.success.truthy = false) :
    saveOnUpdate method path res file = (res.1, ⟨res.2, file⟩) := by
  simp [saveOnUpdate, h]

/-- C3: a status that is not one of the three valid strings, for a room that
is an own property of the registry, is answered 400 with `success: false`, and
neither the registry nor the rooms file changes. -/
theorem updateStatus_invalid_status_rejected (s : Store) (id status : JVal)
    (k now : String) (room : Props)
    (hk : id.toStr = some k) (hroom : getOwn s.quartosPCM.own k = some (.obj room))
    (h1 : status ≠ .str "Vago limpo") (h2 : status ≠ .str "Vago sujo")
    (h3 : status ≠ .str "Ocupado") :
    (updateStatus s.quartosPCM id status now).1.status = 400
    ∧ (updateStatus s.quartosPCM id status now).1.success = .bool false
    ∧ (updateStatus s.quartosPCM id status now).2 = s.quartosPCM
    ∧ postAtualizar s id status now = ((updateStatus s.quartosPCM id status now).1, s) := by
  have hget : s.quartosPCM.get k = .val (.obj room) := Registry.get_own hroom
  have hinc : includesStatus status = false := by
    cases status with
    | str t =>
      have e1 : t ≠ "Vago limpo" := fun e => h1 (by rw [e])
      have e2 : t ≠ "Vago sujo" := fun e => h2 (by rw [e])
      have e3 : t ≠ "Ocupado" := fun e => h3 (by rw [e])
      simp [includesStatus, statusValidos, e1, e2, e3]
    | _ => rfl
  have hup : updateStatus s.quartosPCM id status now
      = (⟨400, .obj [("success", .bool false), ("error", .str "Status inválido"),
                   ("validStatus", .arr (statusValidos.map JVal.str) [])]⟩, s.quartosPCM) := by
    simp [updateStatus, hk, hget, Ref.truthy, JVal.truthy, hinc]
  refine ⟨by rw [hup], by rw [hup]; rfl, by rw [hup], ?_⟩
  unfold postAtualizar postAtualizarAt
  rw [saveOnUpdate_failure _ _ _ _ (by rw [hup]; rfl), hup]

/-- Witness of C3: a store with room 101 alone and the status `"Invalid"`. -/
theorem updateStatus_invalid_status_rejected_witness :
    (updateStatus oneRoomStore.quartosPCM (.num 101) (.str "Invalid") "t").1.status = 400
    ∧ (updateStatus oneRoomStore.quartosPCM (.num 101) (.str "Invalid") "t").1.success
        = .bool false
    ∧ (updateStatus oneRoomStore.quartosPCM (.num 101) (.str "Invalid") "t").2
        = oneRoomStore.quartosPCM
    ∧ postAtualizar oneRoomStore (.num 101) (.str "Invalid") "t"
        = ((updateStatus oneRoomStore.quartosPCM (.num 101) (.str "Invalid") "t").1,
            oneRoomStore) :=
  updateStatus_invalid_status_rejected oneRoomStore (.num 101) (.str "Invalid") "101" "t"
    [("ID_QUARTO", .num 101), ("STATUS", .str "Vago limpo"), ("CHECKLIST", .arr [] []),
     ("ANDAR", .num 1), ("ULTIMA_ATUALIZACAO", .str "2025-01-01T00:00:00.000Z")]
    (by decide) (by decide) (by decide) (by decide) (by decide)

/-- C4: a valid status update of a room that is an own property answers 200
and leaves the room with that `STATUS` and its `ID_QUARTO`, `ANDAR` and
`CHECKLIST`, every other room, the key list and the prototype as they were, so
that `GET /api/quartos/:id` returns the updated room; a second update with the
same status changes nothing but that room's `ULTIMA_ATUALIZACAO`. -/
theorem updateStatus_idempotent_up_to_timestamp (r : Registry) (id : JVal)
    (k s now1 now2 : String) (room : Props)
    (hk : id.toStr = some k) (hroom : getOwn r.own k = some (.obj room))
    (hs : s ∈ statusValidos) :
    ∃ room1 : Props,
      (updateStatus r id (.str s) now1).1.status = 200
      ∧ getOwn (updateStatus r id (.str s) now1).2.own k = some (.obj room1)
      ∧ getOwn room1 "STATUS" = some (.str s)
      ∧ getOwn room1 "ID_QUARTO" = getOwn room "ID_QUARTO"
      ∧ getOwn room1 "ANDAR" = getOwn room "ANDAR"
      ∧ getOwn room1 "CHECKLIST" = getOwn room "CHECKLIST"
      ∧ (∀ k2, k2 ≠ k →
          getOwn (updateStatus r id (.str s) now1).2.own k2 = getOwn r.own k2)
      ∧ (updateStatus r id (.str s) now1).2.keys = r.keys
      ∧ (updateStatus r id (.str s) now1).2.proto = r.proto
      ∧ getQuarto (updateStatus r id (.str s) now1).2 k
          = ⟨200, .obj [("success", .bool true), ("data", .obj room1),
                        ("message", .str ("Quarto " ++ k ++ " encontrado"))]⟩
      ∧ (updateStatus (updateStatus r id (.str s) now1).2 id (.str s) now2).1.status = 200
      ∧ (updateStatus (updateStatus r id (.str s) now1).2 id (.str s) now2).2
          = ⟨replaceOwn (updateStatus r id (.str s) now1).2.own k
              (.obj (setOwn room1 "ULTIMA_ATUALIZACAO" (.str now2))),
             (updateStatus r id (.str s) now1).2.proto⟩ := by
  have hhas : hasOwn r.own k = true := hasOwn_of_getOwn hroom
  have hstatus : getOwn (setOwn (setOwn room "STATUS" (.str s))
      "ULTIMA_ATUALIZACAO" (.str now1)) "STATUS" = some (.str s) := by
    rw [getOwn_setOwn_ne _ _ _ _ (by decide), getOwn_setOwn_self]
  have hother : ∀ f : String, f ≠ "STATUS" → f ≠ "ULTIMA_ATUALIZACAO" →
      getOwn (setOwn (setOwn room "STATUS" (.str s))
        "ULTIMA_ATUALIZACAO" (.str now1)) f = getOwn room f := by
    intro f hf1 hf2
    rw [getOwn_setOwn_ne _ _ _ _ hf2, getOwn_setOwn_ne _ _ _ _ hf1]
  have hroom1 : getOwn (replaceOwn r.own k (.obj (setOwn (setOwn room "STATUS" (.str s))
      "ULTIMA_ATUALIZACAO" (.str now1)))) k
      = some (.obj (setOwn (setOwn room "STATUS" (.str s))
          "ULTIMA_ATUALIZACAO" (.str now1))) :=
    getOwn_replaceOwn_self _ _ _ hhas
  refine ⟨setOwn (setOwn room "STATUS" (.str s)) "ULTIMA_ATUALIZACAO" (.str now1), ?_⟩
  rw [updateStatus_own r id k s now1 room hk hroom hs]
  refine ⟨rfl, hroom1, hstatus, hother _ (by decide) (by decide),
    hother _ (by decide) (by decide), hother _ (by decide) (by decide), ?_, ?_, rfl, ?_, ?_⟩
  · intro k2 h2
    exact getOwn_replaceOwn_ne _ _ _ _ h2
  · exact keys_replaceOwn _ _ _
  · have hg : Registry.get ⟨replaceOwn r.own k (.obj (setOwn (setOwn room "STATUS" (.str s))
        "ULTIMA_ATUALIZACAO" (.str now1))), r.proto⟩ k
        = .val (.obj (setOwn (setOwn room "STATUS" (.str s))
            "ULTIMA_ATUALIZACAO" (.str now1))) := by
      simp [Registry.get, hroom1]
    simp [getQuarto, hg, Ref.truthy, JVal.truthy, Ref.json]
  · rw [updateStatus_own ⟨_, r.proto⟩ id k s now2 _ hk hroom1 hs]
    refine ⟨rfl, ?_⟩
    simp only [replaceOwn_replaceOwn]
    rw [setOwn_same _ "STATUS" _ hstatus]

/-- Witness of C4: room 101 of a one-room registry set to `"Ocupado"` twice. -/
theorem updateStatus_idempotent_up_to_timestamp_witness :
    ∃ room1 : Props,
      (updateStatus oneRoomStore.quartosPCM (.num 101) (.str "Ocupado") "t1").1.status = 200
      ∧ getOwn (updateStatus oneRoomStore.quartosPCM (.num 101) (.str "Ocupado") "t1").2.own
          "101" = some (.obj room1)
      ∧ getOwn room1 "STATUS" = some (.str "Ocupado")
      ∧ getOwn room1 "ID_QUARTO" = getOwn [("ID_QUARTO", JVal.num 101),
          ("STATUS", .str "Vago limpo"), ("CHECKLIST", .arr [] []), ("ANDAR", .num 1),
          ("ULTIMA_ATUALIZACAO", .str "2025-01-01T00:00:00.000Z")] "ID_QUARTO"
      ∧ getOwn room1 "ANDAR" = getOwn [("ID_QUARTO", JVal.num 101),
          ("STATUS", .str "Vago limpo"), ("CHECKLIST", .arr [] []), ("ANDAR", .num 1),
          ("ULTIMA_ATUALIZACAO", .str "2025-01-01T00:00:00.000Z")] "ANDAR"
      ∧ getOwn room1 "CHECKLIST" = getOwn [("ID_QUARTO", JVal.num 101),
          ("STATUS", .str "Vago limpo"), ("CHECKLIST", .arr [] []), ("ANDAR", .num 1),
          ("ULTIMA_ATUALIZACAO", .str "2025-01-01T00:00:00.000Z")] "CHECKLIST"
      ∧ (∀ k2, k2 ≠ "101" →
          getOwn (updateStatus oneRoomStore.quartosPCM (.num 101) (.str "Ocupado") "t1").2.own
            k2 = getOwn oneRoomStore.quartosPCM.own k2)
      ∧ (updateStatus oneRoomStore.quartosPCM (.num 101) (.str "Ocupado") "t1").2.keys
          = oneRoomStore.quartosPCM.keys
      ∧ (updateStatus oneRoomStore.quartosPCM (.num 101) (.str "Ocupado") "t1").2.proto
          = oneRoomStore.quartosPCM.proto
      ∧ getQuarto (updateStatus oneRoomStore.quartosPCM (.num 101) (.str "Ocupado") "t1").2
          "101"
          = ⟨200, .obj [("success", .bool true), ("data", .obj room1),
                        ("message", .str ("Quarto " ++ "101" ++ " encontrado"))]⟩
      ∧ (updateStatus (updateStatus oneRoomStore.quartosPCM (.num 101) (.str "Ocupado") "t1").2
          (.num 101) (.str "Ocupado") "t2").1.status = 200
      ∧ (updateStatus (updateStatus oneRoomStore.quartosPCM (.num 101) (.str "Ocupado") "t1").2
          (.num 101) (.str "Ocupado") "t2").2
          = ⟨replaceOwn
              (updateStatus oneRoomStore.quartosPCM (.num 101) (.str "Ocupado") "t1").2.own
              "101" (.obj (setOwn room1 "ULTIMA_ATUALIZACAO" (.str "t2"))),
             (updateStatus oneRoomStore.quartosPCM (.num 101) (.str "Ocupado")
              "t1").2.proto⟩ :=
  updateStatus_idempotent_up_to_timestamp oneRoomStore.quartosPCM (.num 101) "101" "Ocupado"
    "t1" "t2"
    [("ID_QUARTO", .num 101), ("STATUS", .str "Vago limpo"), ("CHECKLIST", .arr [] []),
     ("ANDAR", .num 1), ("ULTIMA_ATUALIZACAO", .str "2025-01-01T00:00:00.000Z")]
    (by decide) (by decide) (by decide)

/-! ## Reset and persistence -/

theorem getOwn_mem_values {α : Type} {ps : List (String × α)} {k : String} {v : α}
    (h : getOwn ps k = some v) : v ∈ ps.map Prod.snd := by
  induction ps with
  | nil => cases h
  | cons p r ih =>
    obtain ⟨k2, v2⟩ := p
    by_cases e : k2 = k
    · simp only [getOwn, e, beq_self_eq_true, if_true, Option.some.injEq] at h
      simp [h]
    · simp only [getOwn, beq_iff_eq, e, if_false] at h
      exact List.mem_cons_of_mem _ (ih h)

theorem hasOwn_of_mem_keys {α : Type} {ps : List (String × α)} {k : String}
    (h : k ∈ ps.map Prod.fst) : hasOwn ps k = true := by
  induction ps with
  | nil => cases h
  | cons p r ih =>
    obtain ⟨k2, v2⟩ := p
    rcases List.mem_cons.mp h with e | e
    · simp [hasOwn, e]
    · simp [hasOwn, ih e]

theorem hasOwn_replaceOwn {α : Type} (ps : List (String × α)) (k k2 : String) (v : α) :
    hasOwn (replaceOwn ps k v) k2 = hasOwn ps k2 := by
  induction ps with
  | nil => rfl
  | cons p r ih =>
    obtain ⟨k3, v3⟩ := p
    by_cases e : k3 = k <;> simp [replaceOwn, hasOwn, e, ih]

theorem values_replaceOwn {α : Type} (ps : List (String × α)) (k : String) (x : α) :
    ∀ v ∈ (replaceOwn ps k x).map Prod.snd, v ∈ ps.map Prod.snd ∨ v = x := by
  induction ps with
  | nil => intro v hv; cases hv
  | cons p r ih =>
    obtain ⟨k2, v2⟩ := p
    intro v hv
    by_cases e : k2 = k
    · simp only [replaceOwn, e, beq_self_eq_true, if_true, List.map_cons, List.mem_cons] at hv
      rcases hv with h | h
      · exact Or.inr h
      · exact Or.inl (List.mem_cons_of_mem _ h)
    · simp only [replaceOwn, beq_iff_eq, e, if_false, List.map_cons, List.mem_cons] at hv
      rcases hv with h | h
      · exact Or.inl (by simp [h])
      · rcases ih v h with h2 | h2
        · exact Or.inl (List.mem_cons_of_mem _ h2)
        · exact Or.inr h2

/-- One round of the reset loop on a key whose record is an own object. -/
theorem resetOne_own (r : Registry) (id now : String) (ps : Props)
    (h : getOwn r.own id = some (.obj ps)) :
    resetOne r id now
      = some ⟨replaceOwn r.own id (.obj (setOwn (setOwn ps "STATUS" (.str "Vago limpo"))
          "ULTIMA_ATUALIZACAO" (.str now))), r.proto⟩ := by
  simp [resetOne, Registry.get_own h, setField, hasOwn_of_getOwn h]

/-- The reset loop over own keys of object records runs to its end, keeps
the keys and the prototype, and leaves `STATUS = "Vago limpo"` in every
record it visits and in every record that had it. -/
theorem resetLoop_clean (clock : Nat → String) (ks : List String) :
    ∀ (i : Nat) (r : Registry),
      (∀ v ∈ r.own.map Prod.snd, ∃ ps, v = JVal.obj ps) →
      (∀ id ∈ ks, hasOwn r.own id = true) →
      (resetLoop clock ks i r).2 = true
      ∧ (resetLoop clock ks i r).1.proto = r.proto
      ∧ (resetLoop clock ks i r).1.keys = r.keys
      ∧ ∀ k, (k ∈ ks ∨ ∃ qs, getOwn r.own k = some (.obj qs)
                ∧ getOwn qs "STATUS" = some (.str "Vago limpo")) →
          ∃ qs, getOwn (resetLoop clock ks i r).1.own k = some (.obj qs)
            ∧ getOwn qs "STATUS" = some (.str "Vago limpo") := by
  induction ks with
  | nil =>
    intro i r _ _
    refine ⟨rfl, rfl, rfl, ?_⟩
    intro k hk
    rcases hk with h | h
    · cases h
    · exact h
  | cons id rest ih =>
    intro i r hobj hkeys
    have hid : hasOwn r.own id = true := hkeys id (List.mem_cons_self _ _)
    obtain ⟨v, hv⟩ : ∃ v, getOwn r.own id = some v := by
      rw [hasOwn_eq_isSome] at hid
      exact Option.isSome_iff_exists.mp hid
    obtain ⟨ps, hps⟩ := hobj v (getOwn_mem_values hv)
    rw [hps] at hv
    have hone := resetOne_own r id (clock i) ps hv
    have hstep : resetLoop clock (id :: rest) i r
        = resetLoop clock rest (i + 1)
            ⟨replaceOwn r.own id (.obj (setOwn (setOwn ps "STATUS" (.str "Vago limpo"))
              "ULTIMA_ATUALIZACAO" (.str (clock i)))), r.proto⟩ := by
      simp only [resetLoop, hone]
    have hclean : getOwn (setOwn (setOwn ps "STATUS" (.str "Vago limpo"))
        "ULTIMA_ATUALIZACAO" (.str (clock i))) "STATUS" = some (.str "Vago limpo") := by
      rw [getOwn_setOwn_ne _ _ _ _ (by decide), getOwn_setOwn_self]
    have h2 := ih (i + 1)
      ⟨replaceOwn r.own id (.obj (setOwn (setOwn ps "STATUS" (.str "Vago limpo"))
        "ULTIMA_ATUALIZACAO" (.str (clock i)))), r.proto⟩
      (by
        intro w hw
        rcases values_replaceOwn _ _ _ w hw with h | h
        · exact hobj w h
        · exact ⟨_, h⟩)
      (by
        intro id2 hid2
        show hasOwn (replaceOwn r.own id _) id2 = true
        rw [hasOwn_replaceOwn]
        exact hkeys id2 (List.mem_cons_of_mem _ hid2))
    rw [hstep]
    refine ⟨h2.1, h2.2.1, ?_, ?_⟩
    · rw [h2.2.2.1]
      exact keys_replaceOwn _ _ _
    · intro k hk
      apply h2.2.2.2 k
      by_cases e : k = id
      · right
        subst e
        exact ⟨_, getOwn_replaceOwn_self _ _ _ hid, hclean⟩
      · rcases hk with h | ⟨qs, hq1, hq2⟩
        · rcases List.mem_cons.mp h with h3 | h3
          · exact absurd h3 e
          · exact Or.inl h3
        · right
          exact ⟨qs, by
            show getOwn (replaceOwn r.own id _) k = _
            rw [getOwn_replaceOwn_ne _ _ _ _ e]; exact hq1, hq2⟩

/-- On a registry with prototype `Object.prototype` whose records are
objects, `POST /api/quartos/reset` answers 200, keeps the keys and leaves
every room with `STATUS = "Vago limpo"`. -/
theorem resetAll_cleans (own : Props) (clock : Nat → String)
    (hobj : ∀ v ∈ own.map Prod.snd, ∃ ps, v = JVal.obj ps) :
    (resetAll ⟨own, none⟩ clock).1.status = 200
    ∧ (resetAll ⟨own, none⟩ clock).1.success = .bool true
    ∧ (resetAll ⟨own, none⟩ clock).2.keys = own.map Prod.fst
    ∧ ∀ k ∈ own.map Prod.fst,
        ∃ qs, getOwn (resetAll ⟨own, none⟩ clock).2.own k = some (.obj qs)
          ∧ getOwn qs "STATUS" = some (.str "Vago limpo") := by
  have h := resetLoop_clean clock (own.map Prod.fst) 0 ⟨own, none⟩ hobj
    (fun id hid => hasOwn_of_mem_keys hid)
  have hloop : resetLoop clock (own.map Prod.fst) 0 ⟨own, none⟩
      = ((resetLoop clock (own.map Prod.fst) 0 ⟨own, none⟩).1, true) := by
    rw [← h.1]
  have hres : resetAll ⟨own, none⟩ clock
      = (⟨200, .obj [("success", .bool true),
            ("message", .str ("Todos os "
              ++ toString (resetLoop clock (own.map Prod.fst) 0 ⟨own, none⟩).1.keys.length
              ++ " quartos resetados para \"Vago limpo\"")),
            ("timestamp", .str (clock (own.map Prod.fst).length))]⟩,
         (resetLoop clock (own.map Prod.fst) 0 ⟨own, none⟩).1) := by
    simp only [resetAll, Registry.forInKeys, Registry.keys]
    rw [hloop]
  rw [hres]
  exact ⟨rfl, rfl, h.2.2.1, fun k hk => h.2.2.2 k (Or.inl hk)⟩

theorem saveOnUpdate_atualizar (res : Response × Registry) (file : Option Props)
    (h : res.1.success.truthy = true) :
    saveOnUpdate "POST" "/api/quartos/atualizar" res file
      = (res.1, ⟨res.2, some res.2.own⟩) := by
  have hp : includesChars "/api/quartos/atualizar".data "/atualizar".data = true := by decide
  simp [saveOnUpdate, hp, h, saveData]

/-- A successful `POST /api/quartos/atualizar` leaves the rooms file equal to
the registry in memory. -/
theorem postAtualizar_persists (s : Store) (id status : JVal) (now : String)
    (h : (updateStatus s.quartosPCM id status now).1.success.truthy = true) :
    (postAtualizar s id status now).2.dataFile
      = some (postAtualizar s id status now).2.quartosPCM.own := by
  unfold postAtualizar postAtualizarAt
  rw [saveOnUpdate_atualizar _ _ h]

/-- A successful `POST /api/quartos/atualizar-checklist` leaves the rooms file
equal to the registry in memory. -/
theorem postAtualizarChecklist_persists (s : Store) (id checklist : JVal) (now : String)
    (h : (updateChecklist s.quartosPCM id checklist now).1.success.truthy = true) :
    (postAtualizarChecklist s id checklist now).2.dataFile
      = some (postAtualizarChecklist s id checklist now).2.quartosPCM.own := by
  have hp : includesChars "/api/quartos/atualizar-checklist".data "/atualizar".data = true := by
    decide
  simp [postAtualizarChecklist, postAtualizarChecklistAt, saveOnUpdate, hp, h, saveData]

/-- `POST /api/quartos/reset` never writes the rooms file: its path does not
include `/atualizar`. -/
theorem postReset_eq (s : Store) (clock : Nat → String) :
    postReset s clock = ((resetAll s.quartosPCM clock).1,
      ⟨(resetAll s.quartosPCM clock).2, s.dataFile⟩) := by
  have hp : includesChars "/api/quartos/reset".data "/atualizar".data = false := by decide
  simp [postReset, postResetAt, saveOnUpdate, hp]

theorem startsWith_map (f : Char → Char) (l sub : List Char)
    (h : startsWith l sub = true) : startsWith (l.map f) (sub.map f) = true := by
  induction l generalizing sub with
  | nil =>
    cases sub with
    | nil => rfl
    | cons d u => simp [startsWith] at h
  | cons c r ih =>
    cases sub with
    | nil => rfl
    | cons d u =>
      simp only [startsWith, Bool.and_eq_true, beq_iff_eq] at h
      simp only [List.map_cons, startsWith, Bool.and_eq_true, beq_iff_eq]
      exact ⟨by rw [h.1], ih u h.2⟩

theorem includesChars_map (f : Char → Char) (l sub : List Char)
    (h : includesChars l sub = true) : includesChars (l.map f) (sub.map f) = true := by
  induction l with
  | nil =>
    cases sub with
    | nil => rfl
    | cons d u => simp [includesChars] at h
  | cons c r ih =>
    simp only [includesChars, Bool.or_eq_true] at h
    simp only [List.map_cons, includesChars, Bool.or_eq_true]
    rcases h with h | h
    · exact Or.inl (startsWith_map f (c :: r) sub h)
    · exact Or.inr (ih h)

/-- The save of `POST /api/quartos/atualizar` depends on the path as
requested: at any path that includes `/atualizar` a successful update is
saved. -/
theorem postAtualizarAt_persists (s : Store) (path : String) (id status : JVal)
    (now : String) (hp : includesChars path.data "/atualizar".data = true)
    (h : (updateStatus s.quartosPCM id status now).1.success.truthy = true) :
    (postAtualizarAt s path id status now).2.dataFile
      = some (postAtualizarAt s path id status now).2.quartosPCM.own := by
  simp [postAtualizarAt, saveOnUpdate, hp, h, saveData]

/-- The path `/api/quartos/ATUALIZAR` matches the route of
`POST /api/quartos/atualizar` but does not include `/atualizar`: the handler
runs and nothing is saved. -/
theorem postAtualizarAt_upper_case_not_saved (s : Store) (id status : JVal) (now : String) :
    routeMatches "/api/quartos/atualizar" "/api/quartos/ATUALIZAR" = true
    ∧ postAtualizarAt s "/api/quartos/ATUALIZAR" id status now
      = ((updateStatus s.quartosPCM id status now).1,
         ⟨(updateStatus s.quartosPCM id status now).2, s.dataFile⟩) := by
  have hp : includesChars "/api/quartos/ATUALIZAR".data "/atualizar".data = false := by decide
  exact ⟨by decide, by simp [postAtualizarAt, saveOnUpdate, hp]⟩

/-- At every path that matches its route, `POST /api/quartos/reset` leaves
the rooms file as it was. -/
theorem postResetAt_keeps_file (s : Store) (path : String) (clock : Nat → String)
    (hm : routeMatches "/api/quartos/reset" path = true) :
    postResetAt s path clock = ((resetAll s.quartosPCM clock).1,
      ⟨(resetAll s.quartosPCM clock).2, s.dataFile⟩) := by
  have hp : includesChars path.data "/atualizar".data = false := by
    cases hinc : includesChars path.data "/atualizar".data with
    | false => rfl
    | true =>
      have h2 := includesChars_map Char.toLower _ _ hinc
      have hl : "/atualizar".data.map Char.toLower = "/atualizar".data := by decide
      rw [hl] at h2
      simp only [routeMatches, Bool.or_eq_true, beq_iff_eq] at hm
      rcases hm with h | h
      · rw [h] at h2
        exact absurd h2 (by decide)
      · rw [h] at h2
        exact absurd h2 (by decide)
  simp [postResetAt, saveOnUpdate, hp]

/-! ## Unknown ids -/

/-- An id whose key is no own property of the registry, is not reachable
through a replaced prototype and is not a property of `Object.prototype`
is answered 404 and changes nothing, whatever the status. -/
theorem updateStatus_unknown_key (r : Registry) (id status : JVal) (k now : String)
    (hk : id.toStr = some k) (hown : getOwn r.own k = none) (hproto : r.proto = none)
    (hnames : k ∉ objectPrototypeNames) (hk2 : k ≠ "__proto__") :
    updateStatus r id status now = (roomNotFound k, r) := by
  have hget : r.get k = .val .undefined := by
    simp [Registry.get, hown, hproto, hk2, hnames]
  simp [updateStatus, hk, hget, Ref.truthy, JVal.truthy]

/-- An id that names a function of `Object.prototype`, with a valid status,
is answered 200 and becomes a new own property of the registry. -/
theorem updateStatus_inherited_name (own : Props) (k s now : String)
    (hown : getOwn own k = none)
    (hname : k ∈ objectPrototypeNames) (hk2 : k ≠ "__proto__") (hs : s ∈ statusValidos) :
    updateStatus ⟨own, none⟩ (.str k) (.str s) now
      = (⟨200, .obj [("success", .bool true),
            ("message", .str ("Quarto " ++ k ++ " atualizado para: " ++ s)),
            ("data", .obj [("STATUS", .str s), ("ULTIMA_ATUALIZACAO", .str now)])]⟩,
         ⟨insertNew own k (.obj [("STATUS", .str s), ("ULTIMA_ATUALIZACAO", .str now)]),
          none⟩) := by
  have hget : Registry.get ⟨own, none⟩ k = .builtin k := by
    simp [Registry.get, hown, hk2, hname]
  have hhas : hasOwn own k = false := by rw [hasOwn_eq_isSome, hown]; rfl
  have hrec : setOwn (setOwn (spread (.builtin k)) "STATUS" (.str s))
      "ULTIMA_ATUALIZACAO" (.str now)
      = [("STATUS", .str s), ("ULTIMA_ATUALIZACAO", .str now)] := by
    have e1 : isArrayIndex "ULTIMA_ATUALIZACAO" = false := by decide
    simp [spread, setOwn, hasOwn, insertNew, e1]
  have hset : Registry.set ⟨own, none⟩ k [("STATUS", .str s), ("ULTIMA_ATUALIZACAO", .str now)]
      = ⟨insertNew own k (.obj [("STATUS", .str s), ("ULTIMA_ATUALIZACAO", .str now)]),
          none⟩ := by
    simp [Registry.set, hhas, hk2]
  have hget2 : Registry.get ⟨insertNew own k
        (.obj [("STATUS", .str s), ("ULTIMA_ATUALIZACAO", .str now)]), none⟩ k
      = .val (.obj [("STATUS", .str s), ("ULTIMA_ATUALIZACAO", .str now)]) := by
    simp [Registry.get, getOwn_insertNew_self _ _ _ hhas]
  simp only [updateStatus, JVal.toStr, hget, Ref.truthy, includesStatus_of_mem hs, hrec,
    hset, hget2, Ref.json, Bool.not_true, Bool.false_eq_true, if_false, Option.getD]

/-- The call with id `"constructor"` on a registry with array-index keys
only and prototype `Object.prototype`. -/
theorem updateStatus_constructor (own : Props) (now : String)
    (hnone : getOwn own "constructor" = none)
    (hidx : ∀ p ∈ own, isArrayIndex p.1 = true) :
    updateStatus ⟨own, none⟩ (.str "constructor") (.str "Ocupado") now
      = (⟨200, .obj [("success", .bool true),
            ("message", .str "Quarto constructor atualizado para: Ocupado"),
            ("data", .obj [("STATUS", .str "Ocupado"), ("ULTIMA_ATUALIZACAO", .str now)])]⟩,
         ⟨own ++ [("constructor", .obj [("STATUS", .str "Ocupado"),
                  ("ULTIMA_ATUALIZACAO", .str now)])], none⟩) := by
  have hk : isArrayIndex "constructor" = false := by decide
  have hmsg : "Quarto " ++ "constructor" ++ " atualizado para: " ++ "Ocupado"
      = "Quarto constructor atualizado para: Ocupado" := by decide
  rw [updateStatus_inherited_name own "constructor" "Ocupado" now hnone
    (by decide) (by decide) (by decide),
    insertNew_append_of_not_index own "constructor" _ hk hidx, hmsg]

/-- C2 fails on the code: the id `"constructor"` is the key of no room of the
seeded registry, and `POST /api/quartos/atualizar` answers 200 and adds a
199th own property, because `quartosPCM["constructor"]` reads the function
inherited from `Object.prototype`. -/
theorem updateStatus_accepts_constructor :
    hasOwn seededStore.quartosPCM.own "constructor" = false
    ∧ seededStore.quartosPCM.own.length = 198
    ∧ updateStatus seededStore.quartosPCM (.str "constructor") (.str "Ocupado")
        "2025-01-02T00:00:00.000Z"
      = (⟨200, .obj [("success", .bool true),
            ("message", .str "Quarto constructor atualizado para: Ocupado"),
            ("data", .obj [("STATUS", .str "Ocupado"),
                           ("ULTIMA_ATUALIZACAO", .str "2025-01-02T00:00:00.000Z")])]⟩,
         ⟨seededStore.quartosPCM.own
            ++ [("constructor", .obj [("STATUS", .str "Ocupado"),
                  ("ULTIMA_ATUALIZACAO", .str "2025-01-02T00:00:00.000Z")])], none⟩) := by
  obtain ⟨own, hs, hlen, hnone, hidx, _, _⟩ := seededStore_facts
  rw [hs]
  dsimp only
  refine ⟨?_, hlen, updateStatus_constructor own _ hnone hidx⟩
  rw [hasOwn_eq_isSome, hnone]
  rfl

/-- C5 fails on the code: from the seeded registry, one call of
`updateStatus` with id `"constructor"` gives a registry with 199 keys, the
198 seeded ones and `"constructor"`. -/
theorem runCalls_adds_constructor_key :
    (runCalls seededStore.quartosPCM
        [.updateStatus (.str "constructor") (.str "Ocupado") "2025-01-02T00:00:00.000Z"]).keys
      = seededStore.quartosPCM.keys ++ ["constructor"]
    ∧ seededStore.quartosPCM.keys.length = 198
    ∧ (runCalls seededStore.quartosPCM
        [.updateStatus (.str "constructor") (.str "Ocupado")
          "2025-01-02T00:00:00.000Z"]).keys.length = 199 := by
  obtain ⟨own, hs, hlen, hnone, hidx, _, _⟩ := seededStore_facts
  rw [hs]
  dsimp only
  have hrun : runCalls ⟨own, none⟩
      [.updateStatus (.str "constructor") (.str "Ocupado") "2025-01-02T00:00:00.000Z"]
      = ⟨own ++ [("constructor", .obj [("STATUS", .str "Ocupado"),
                  ("ULTIMA_ATUALIZACAO", .str "2025-01-02T00:00:00.000Z")])], none⟩ := by
    simp only [runCalls, List.foldl, Call.apply]
    rw [updateStatus_constructor own _ hnone hidx]
  rw [hrun]
  simp [Registry.keys, hlen]

theorem mem_keys_of_getOwn {α : Type} {ps : List (String × α)} {k : String} {v : α}
    (h : getOwn ps k = some v) : k ∈ ps.map Prod.fst := by
  induction ps with
  | nil => cases h
  | cons p r ih =>
    obtain ⟨k2, v2⟩ := p
    by_cases e : k2 = k
    · simp [e]
    · simp only [getOwn, beq_iff_eq, e, if_false] at h
      exact List.mem_cons_of_mem _ (ih h)

/-- A status update of room 101 followed by a reset, on a store whose file
holds the registry: the update is saved, the reset is not. -/
theorem reset_after_update_stale (own room : Props) (now : String) (clock : Nat → String)
    (s1 : Store)
    (hobj : ∀ v ∈ own.map Prod.snd, ∃ ps, v = JVal.obj ps)
    (h101 : getOwn own "101" = some (.obj room))
    (h1 : s1 = (postAtualizar ⟨⟨own, none⟩, some own⟩ (.num 101) (.str "Ocupado") now).2) :
    s1.dataFile = some s1.quartosPCM.own
    ∧ (postReset s1 clock).1.status = 200
    ∧ (postReset s1 clock).1.success = .bool true
    ∧ (∃ ps, getOwn (postReset s1 clock).2.quartosPCM.own "101" = some (.obj ps)
        ∧ getOwn ps "STATUS" = some (.str "Vago limpo"))
    ∧ (∃ d ps, (postReset s1 clock).2.dataFile = some d ∧ getOwn d "101" = some (.obj ps)
        ∧ getOwn ps "STATUS" = some (.str "Ocupado"))
    ∧ (postReset s1 clock).2.dataFile ≠ some (postReset s1 clock).2.quartosPCM.own := by
  have hup := updateStatus_own ⟨own, none⟩ (.num 101) "101" "Ocupado" now room (by decide)
    h101 (by decide)
  have hstatus : getOwn (setOwn (setOwn room "STATUS" (.str "Ocupado"))
      "ULTIMA_ATUALIZACAO" (.str now)) "STATUS" = some (.str "Ocupado") := by
    rw [getOwn_setOwn_ne _ _ _ _ (by decide), getOwn_setOwn_self]
  generalize hr : setOwn (setOwn room "STATUS" (.str "Ocupado"))
      "ULTIMA_ATUALIZACAO" (.str now) = room1 at hup hstatus
  have hs1 : s1 = ⟨⟨replaceOwn own "101" (.obj room1), none⟩,
      some (replaceOwn own "101" (.obj room1))⟩ := by
    rw [h1]
    unfold postAtualizar postAtualizarAt
    dsimp only
    rw [saveOnUpdate_atualizar _ _ (by rw [hup]; rfl), hup]
  have hroom1 : getOwn (replaceOwn own "101" (.obj room1)) "101" = some (.obj room1) :=
    getOwn_replaceOwn_self _ _ _ (hasOwn_of_getOwn h101)
  have hobj1 : ∀ v ∈ (replaceOwn own "101" (.obj room1)).map Prod.snd,
      ∃ ps, v = JVal.obj ps := by
    intro v hv
    rcases values_replaceOwn _ _ _ v hv with h | h
    · exact hobj v h
    · exact ⟨_, h⟩
  have hreset := resetAll_cleans _ clock hobj1
  obtain ⟨ps, hps1, hps2⟩ := hreset.2.2.2 "101" (mem_keys_of_getOwn hroom1)
  rw [hs1, postReset_eq]
  dsimp only
  refine ⟨rfl, hreset.1, hreset.2.1, ⟨ps, hps1, hps2⟩,
    ⟨_, room1, rfl, hroom1, hstatus⟩, ?_⟩
  intro h
  have e := Option.some.inj h
  rw [← e, hroom1] at hps1
  have e2 : room1 = ps := JVal.obj.inj (Option.some.inj hps1)
  rw [← e2, hstatus] at hps2
  exact absurd hps2 (by decide)

/-- C6 fails on the code for `resetAll`: after room 101 of the seeded store is
set to `"Ocupado"` (which is saved) and all rooms are reset (status 200), the
registry has room 101 at `"Vago limpo"` while the rooms file still has it at
`"Ocupado"`, so the file differs from the registry. -/
theorem postReset_leaves_file_stale :
    (postAtualizar seededStore (.num 101) (.str "Ocupado")
        "2025-01-02T00:00:00.000Z").2.dataFile
      = some (postAtualizar seededStore (.num 101) (.str "Ocupado")
        "2025-01-02T00:00:00.000Z").2.quartosPCM.own
    ∧ (postReset (postAtualizar seededStore (.num 101) (.str "Ocupado")
        "2025-01-02T00:00:00.000Z").2
        (fixedClock "2025-01-03T00:00:00.000Z")).1.status = 200
    ∧ (postReset (postAtualizar seededStore (.num 101) (.str "Ocupado")
        "2025-01-02T00:00:00.000Z").2
        (fixedClock "2025-01-03T00:00:00.000Z")).1.success = .bool true
    ∧ (∃ ps, getOwn (postReset (postAtualizar seededStore (.num 101) (.str "Ocupado")
        "2025-01-02T00:00:00.000Z").2
          (fixedClock "2025-01-03T00:00:00.000Z")).2.quartosPCM.own "101" = some (.obj ps)
        ∧ getOwn ps "STATUS" = some (.str "Vago limpo"))
    ∧ (∃ d ps, (postReset (postAtualizar seededStore (.num 101) (.str "Ocupado")
        "2025-01-02T00:00:00.000Z").2
          (fixedClock "2025-01-03T00:00:00.000Z")).2.dataFile = some d
        ∧ getOwn d "101" = some (.obj ps) ∧ getOwn ps "STATUS" = some (.str "Ocupado"))
    ∧ (postReset (postAtualizar seededStore (.num 101) (.str "Ocupado")
        "2025-01-02T00:00:00.000Z").2
        (fixedClock "2025-01-03T00:00:00.000Z")).2.dataFile
        ≠ some (postReset (postAtualizar seededStore (.num 101) (.str "Ocupado")
        "2025-01-02T00:00:00.000Z").2
            (fixedClock "2025-01-03T00:00:00.000Z")).2.quartosPCM.own := by
  obtain ⟨own, hs, _, _, _, hobj, h101⟩ := seededStore_facts
  exact reset_after_update_stale own _ "2025-01-02T00:00:00.000Z" _ _ hobj h101
    (by rw [hs])

/-! ## Floors -/

theorem strictEq_nan (v : JVal) : v.strictEq .nan = false := by
  cases v <;> rfl

theorem filterField_nan (k : String) (vs : List JVal)
    (h : ∀ v ∈ vs, ∃ ps, v = JVal.obj ps) : filterField k .nan vs = some [] := by
  induction vs with
  | nil => rfl
  | cons v r ih =>
    obtain ⟨ps, rfl⟩ := h v (List.mem_cons_self _ _)
    simp only [filterField, getField, ih fun w hw => h w (List.mem_cons_of_mem _ hw),
      strictEq_nan, Bool.false_eq_true, if_false]

/-- A path parameter that `parseInt` reads as `NaN` passes the range test:
on a registry of object records the route answers 200 with no room. -/
theorem listByFloor_nan (r : Registry) (numero : String)
    (hparse : parseInt numero = .nan)
    (hobj : ∀ v ∈ r.own.map Prod.snd, ∃ ps, v = JVal.obj ps) :
    listByFloor r numero
      = ⟨200, .obj [("success", .bool true), ("data", .arr [] []), ("total", .num 0),
                    ("andar", .nan)]⟩ := by
  simp only [listByFloor, hparse, numLt, numGt, Bool.or_self, Bool.false_eq_true, if_false,
    Registry.values, filterField_nan "ANDAR" _ hobj]
  rfl

/-- The parameters `"10"` and `"0"` are answered 400 on every registry. -/
theorem listByFloor_out_of_range (r : Registry) :
    (listByFloor r "10").status = 400 ∧ (listByFloor r "0").status = 400 := by
  have h10 : parseInt "10" = .num 10 := by decide
  have h0 : parseInt "0" = .num 0 := by decide
  constructor
  · simp [listByFloor, h10, numLt, numGt]
  · simp [listByFloor, h0, numLt, numGt]

/-- For a path parameter that `parseInt` reads as a floor from 1 to 9,
`GET /api/quartos/andar/:numero` and `GET /api/quartos?andar=numero` return
the same rooms in the same order (or both fail on a `null` record). -/
theorem listByFloor_eq_listQuartos (r : Registry) (numero now : String) (f : Int)
    (hparse : parseInt numero = .num f) (h1 : 1 ≤ f) (h9 : f ≤ 9) :
    listByFloor r numero
      = (match filterField "ANDAR" (.num f) r.values with
         | none => internalError
         | some qs =>
           ⟨200, .obj [("success", .bool true), ("data", .arr qs []),
                       ("total", .num qs.length), ("andar", .num f)]⟩)
    ∧ listQuartos r .undefined (.str numero) now
      = (match filterField "ANDAR" (.num f) r.values with
         | none => internalError
         | some qs =>
           ⟨200, .obj [("success", .bool true), ("data", .arr qs []),
                       ("total", .num qs.length), ("lastUpdated", .str now)]⟩) := by
  have hne : numero ≠ "" := by
    intro e
    rw [e] at hparse
    cases hparse
  constructor
  · have hlt : ¬ f < 1 := by omega
    have hgt : ¬ f > 9 := by omega
    simp only [listByFloor, hparse, numLt, numGt, hlt, hgt, decide_False, Bool.or_self,
      Bool.false_eq_true, if_false]
  · simp only [listQuartos, JVal.truthy, Bool.false_eq_true, if_false, JVal.toStr, hparse]
    have ht : (numero != "") = true := by simpa using hne
    simp only [ht, if_true]
    cases hv : r.values with
    | nil => simp [filterField]
    | cons q rest => rfl

/-- C10 fails on the code for a parameter that is not a number: `parseInt`
gives `NaN`, which is neither below 1 nor above 9, so
`GET /api/quartos/andar/abc` answers 200 with no room and floor `NaN`, on the
seeded registry (`"10"` and `"0"` are answered 400). -/
theorem listByFloor_accepts_non_numeric :
    parseInt "abc" = .nan
    ∧ listByFloor seededStore.quartosPCM "abc"
      = ⟨200, .obj [("success", .bool true), ("data", .arr [] []), ("total", .num 0),
                    ("andar", .nan)]⟩
    ∧ (listByFloor seededStore.quartosPCM "10").status = 400
    ∧ (listByFloor seededStore.quartosPCM "0").status = 400 := by
  obtain ⟨own, hs, _, _, _, hobj, _⟩ := seededStore_facts
  rw [hs]
  dsimp only
  exact ⟨by decide, listByFloor_nan ⟨own, none⟩ "abc" (by decide) hobj,
    listByFloor_out_of_range _⟩

/-! ## Users and authentication -/

theorem strictEq_str_iff (v : JVal) (e : String) :
    v.strictEq (.str e) = true ↔ v = .str e := by
  cases v <;> simp [JVal.strictEq]

theorem findUser_append_of_all_false (pred : User → Bool) (l l2 : List User)
    (h : ∀ u ∈ l, pred u = false) : findUser pred (l ++ l2) = findUser pred l2 := by
  induction l with
  | nil => rfl
  | cons a r ih =>
    have ha : pred a = false := h a (List.mem_cons_self a r)
    simp only [List.cons_append, findUser, ha, Bool.false_eq_true, if_false]
    exact ih fun u hu => h u (List.mem_cons_of_mem a hu)

/-- In a list with pairwise distinct e-mails, a search that only accepts
users with the e-mail of `u`, and accepts `u`, finds `u`. -/
theorem findUser_of_pairwise (pred : User → Bool) (users : List User) (u : User)
    (e : String)
    (hd : users.Pairwise fun a b => a.email.strictEq b.email = false)
    (hu : u ∈ users) (he : u.email = .str e)
    (hpred : ∀ a, pred a = true → a.email.strictEq (.str e) = true)
    (hpu : pred u = true) : findUser pred users = some u := by
  induction users with
  | nil => cases hu
  | cons a r ih =>
    rw [List.pairwise_cons] at hd
    rcases List.mem_cons.mp hu with h | h
    · subst h
      simp [findUser, hpu]
    · have hne : a.email.strictEq (.str e) = false := by
        rw [← he]
        exact hd.1 u h
      have hpa : pred a = false := by
        cases hp : pred a with
        | false => rfl
        | true => rw [hpred a hp] at hne; cases hne
      simp only [findUser, hpa, Bool.false_eq_true, if_false]
      exact ih hd.2 h

theorem nicknameOr_str (nickname : JVal) (e : String) :
    nicknameOr nickname (.str e)
      = some (if nickname.truthy then nickname
              else .str (String.mk (e.data.takeWhile fun c => c != '@'))) := by
  unfold nicknameOr localPart
  split <;> rfl

theorem nicknameOr_idem (nickname : JVal) (e : String) (nick : JVal)
    (h : nicknameOr nickname (.str e) = some nick) :
    nicknameOr nick (.str e) = some nick := by
  rw [nicknameOr_str] at h
  rw [nicknameOr_str]
  by_cases ht : nickname.truthy = true
  · simp only [ht, if_true, Option.some.injEq] at h
    subst h
    simp [ht]
  · simp only [ht, Bool.false_eq_true, if_false, Option.some.injEq] at h
    by_cases hn : nick.truthy = true
    · simp [hn]
    · simp [hn, h]

/-- C8: registering an e-mail (a non-empty string) that no user has, with a
non-empty password, answers 200 and appends a user of role `"user"`; a login
with the same e-mail and password right afterwards answers 200 with the e-mail
as token and a user view made of `email`, `role = "user"` and `nickname`
only. -/
theorem register_then_login (users : List User) (e p : String) (nickname : JVal)
    (he : e ≠ "") (hp : p ≠ "")
    (hfresh : ∀ u ∈ users, u.email.strictEq (.str e) = false) :
    ∃ nick : JVal,
      register users (.str e) (.str p) nickname
        = (⟨200, .obj [("success", .bool true),
              ("user", .obj [("email", .str e), ("role", .str "user"), ("nickname", nick)]),
              ("token", .str e)]⟩,
           users ++ [⟨.str e, .str p, .str "user", nick⟩])
      ∧ login (register users (.str e) (.str p) nickname).2 (.str e) (.str p)
        = ⟨200, .obj [("success", .bool true),
              ("user", .obj [("email", .str e), ("role", .str "user"), ("nickname", nick)]),
              ("token", .str e)]⟩ := by
  obtain ⟨nick, hnick⟩ : ∃ nick, nicknameOr nickname (.str e) = some nick :=
    ⟨_, nicknameOr_str nickname e⟩
  have hany : (users.any fun u => u.email.strictEq (.str e)) = false := by
    rw [List.any_eq_false]
    intro u hu
    simp [hfresh u hu]
  have hreg : register users (.str e) (.str p) nickname
        = (⟨200, .obj [("success", .bool true),
              ("user", .obj [("email", .str e), ("role", .str "user"), ("nickname", nick)]),
              ("token", .str e)]⟩,
           users ++ [⟨.str e, .str p, .str "user", nick⟩]) := by
    simp [register, JVal.truthy, he, hp, hany, hnick]
  refine ⟨nick, hreg, ?_⟩
  rw [hreg]
  have hfind : findUser (fun u => u.email.strictEq (.str e) && u.senha.strictEq (.str p))
      (users ++ [⟨.str e, .str p, .str "user", nick⟩])
      = some ⟨.str e, .str p, .str "user", nick⟩ := by
    rw [findUser_append_of_all_false _ _ _ (fun u hu => by simp [hfresh u hu])]
    simp [findUser, JVal.strictEq]
  simp only [login, hfind, nicknameOr_idem nickname e nick hnick]

/-- Witness of C8: a new e-mail registered on the default users. -/
theorem register_then_login_witness :
    ∃ nick : JVal,
      register defaultUsers (.str "ana@goinn.com") (.str "ana123") .undefined
        = (⟨200, .obj [("success", .bool true),
              ("user", .obj [("email", .str "ana@goinn.com"), ("role", .str "user"),
                             ("nickname", nick)]),
              ("token", .str "ana@goinn.com")]⟩,
           defaultUsers ++ [⟨.str "ana@goinn.com", .str "ana123", .str "user", nick⟩])
      ∧ login (register defaultUsers (.str "ana@goinn.com") (.str "ana123") .undefined).2
          (.str "ana@goinn.com") (.str "ana123")
        = ⟨200, .obj [("success", .bool true),
              ("user", .obj [("email", .str "ana@goinn.com"), ("role", .str "user"),
                             ("nickname", nick)]),
              ("token", .str "ana@goinn.com")]⟩ :=
  register_then_login defaultUsers "ana@goinn.com" "ana123" .undefined (by decide)
    (by decide) (by decide)

/-- C9, as the code has it: registering an e-mail that a user already has,
with a truthy e-mail and password, answers 400 with the error `"E-mail já
cadastrado"` and leaves the user list as it was; the status is the one of a
request with no e-mail, which differs only by its error text. -/
theorem register_duplicate_email (users : List User) (email senha nickname : JVal)
    (u : User) (he : email.truthy = true) (hs : senha.truthy = true)
    (hu : u ∈ users) (hdup : u.email.strictEq email = true) :
    register users email senha nickname
      = (⟨400, .obj [("success", .bool false), ("error", .str "E-mail já cadastrado")]⟩,
         users)
    ∧ (register users email senha nickname).2.length = users.length
    ∧ register users .undefined senha nickname
      = (⟨400, .obj [("success", .bool false),
                     ("error", .str "E-mail e senha são obrigatórios")]⟩, users) := by
  have hany : (users.any fun a => a.email.strictEq email) = true :=
    List.any_eq_true.mpr ⟨u, hu, hdup⟩
  have hreg : register users email senha nickname
      = (⟨400, .obj [("success", .bool false), ("error", .str "E-mail já cadastrado")]⟩,
         users) := by
    simp [register, he, hs, hany]
  refine ⟨hreg, by rw [hreg], ?_⟩
  simp [register, JVal.truthy]

/-- Witness of C9: the e-mail of the default administrator. -/
theorem register_duplicate_email_witness :
    register defaultUsers (.str "admin@goinn.com") (.str "outra") .undefined
      = (⟨400, .obj [("success", .bool false), ("error", .str "E-mail já cadastrado")]⟩,
         defaultUsers)
    ∧ (register defaultUsers (.str "admin@goinn.com") (.str "outra") .undefined).2.length
      = defaultUsers.length
    ∧ register defaultUsers .undefined (.str "outra") .undefined
      = (⟨400, .obj [("success", .bool false),
                     ("error", .str "E-mail e senha são obrigatórios")]⟩, defaultUsers) :=
  register_duplicate_email defaultUsers (.str "admin@goinn.com") (.str "outra") .undefined
    ⟨.str "admin@goinn.com", .str "admin123", .str "admin", .str "Administrador"⟩
    (by decide) (by decide) (by decide) (by decide)

/-- Counterexample to C9 as stated: on the default users, a second
registration of `admin@goinn.com` is answered with status 400, the very status
of a registration with no e-mail, so it is not an error kind apart from
`BadRequest`. -/
theorem register_duplicate_is_bad_request :
    (register defaultUsers (.str "admin@goinn.com") (.str "outra") .undefined).1.status = 400
    ∧ (register defaultUsers .undefined (.str "outra") .undefined).1.status = 400
    ∧ ¬ ((register defaultUsers (.str "admin@goinn.com") (.str "outra") .undefined).1.status
        ≠ (register defaultUsers .undefined (.str "outra") .undefined).1.status) := by
  decide

theorem nicknameOr_isSome (nickname email : JVal) :
    (nicknameOr nickname email).isSome = (nickname.truthy || (localPart email).isSome) := by
  unfold nicknameOr
  cases h : nickname.truthy <;> simp

/-- The views of `GET /api/admin/users` can be built exactly when every user
has a truthy nickname or an e-mail that is a string. -/
theorem userViews_isSome (clock : Nat → String) (users : List User) :
    ∀ i, (userViews clock users i).isSome
      = users.all fun a => a.nickname.truthy || (localPart a.email).isSome := by
  induction users with
  | nil => intro i; rfl
  | cons a r ih =>
    intro i
    have h1 := nicknameOr_isSome a.nickname a.email
    have h2 := ih (i + 1)
    simp only [userViews, List.all_cons]
    rw [← h1, ← h2]
    cases hn : nicknameOr a.nickname a.email <;> cases hv : userViews clock r (i + 1) <;> rfl

/-- C7, as the code has it: in a user list with pairwise distinct e-mails,
for a user `u` whose e-mail is a string `e`, a login with `e` and a password
strictly equal to the stored one answers 200 with token `e` and the view of
`u`. With `e` as `Authorization`, the admin guard answers 401 when `e` is
empty, admits the request as `u` when `u.role` is `"admin"` and answers 403
for any other role; `GET /api/admin/users` answers accordingly, and once
admitted it answers 200 with the views when they can be built, which is when
every user has a truthy nickname or a string e-mail, and 500 otherwise. -/
theorem login_token_on_admin_route (users : List User) (u : User) (e : String)
    (senha : JVal) (clock : Nat → String)
    (hd : users.Pairwise fun a b => a.email.strictEq b.email = false)
    (hu : u ∈ users) (he : u.email = .str e) (hs : u.senha.strictEq senha = true) :
    login users (.str e) senha
      = ⟨200, .obj [("success", .bool true),
            ("user", .obj [("email", .str e), ("role", u.role),
              ("nickname", if u.nickname.truthy then u.nickname
                else .str (String.mk (e.data.takeWhile fun c => c != '@')))]),
            ("token", .str e)]⟩
    ∧ requireAdmin users (some e)
      = (if e = "" then
          .error ⟨401, .obj [("success", .bool false),
                             ("error", .str "Token não fornecido")]⟩
        else if u.role.strictEq (.str "admin") = true then .ok u
        else .error ⟨403, .obj [("success", .bool false), ("error", .str "Acesso negado")]⟩)
    ∧ listUsers users (some e) clock
      = (if e = "" then
          ⟨401, .obj [("success", .bool false), ("error", .str "Token não fornecido")]⟩
        else if u.role.strictEq (.str "admin") = true then
          match userViews clock users 0 with
          | some views => ⟨200, .obj [("success", .bool true), ("data", .arr views [])]⟩
          | none => internalError
        else ⟨403, .obj [("success", .bool false), ("error", .str "Acesso negado")]⟩)
    ∧ (userViews clock users 0).isSome
      = users.all fun a => a.nickname.truthy || (localPart a.email).isSome := by
  have hlogin : findUser (fun a => a.email.strictEq (.str e) && a.senha.strictEq senha)
      users = some u :=
    findUser_of_pairwise _ users u e hd hu he
      (fun a ha => by simp only [Bool.and_eq_true] at ha; exact ha.1)
      (by
        show (u.email.strictEq (.str e) && u.senha.strictEq senha) = true
        rw [he, hs]
        simp [JVal.strictEq])
  have hauth : findUser (fun a => a.email.strictEq (.str e)) users = some u :=
    findUser_of_pairwise _ users u e hd hu he (fun a ha => ha) (by simp [he, JVal.strictEq])
  have hreq : requireAdmin users (some e)
      = (if e = "" then
          .error ⟨401, .obj [("success", .bool false),
                             ("error", .str "Token não fornecido")]⟩
        else if u.role.strictEq (.str "admin") = true then .ok u
        else .error ⟨403, .obj [("success", .bool false),
                                ("error", .str "Acesso negado")]⟩) := by
    by_cases h0 : e = ""
    · simp [requireAdmin, authenticate, h0]
    · by_cases hr : u.role.strictEq (.str "admin") = true
      · simp [requireAdmin, authenticate, h0, hauth, hr]
      · simp [requireAdmin, authenticate, h0, hauth, hr]
  refine ⟨?_, hreq, ?_, userViews_isSome clock users 0⟩
  · simp only [login, hlogin, he, nicknameOr_str]
  · unfold listUsers
    rw [hreq]
    by_cases h0 : e = ""
    · simp [h0]
    · by_cases hr : u.role.strictEq (.str "admin") = true
      · simp only [h0, hr, if_true, if_false]
        cases userViews clock users 0 <;> rfl
      · simp [h0, hr]

/-- Witness of C7: the default administrator, admitted and answered 200, and
the default user `user@goinn.com`, answered 403. -/
theorem login_token_on_admin_route_witness :
    (login defaultUsers (.str "admin@goinn.com") (.str "admin123")
      = ⟨200, .obj [("success", .bool true),
            ("user", .obj [("email", .str "admin@goinn.com"), ("role", .str "admin"),
              ("nickname", if (JVal.str "Administrador").truthy then .str "Administrador"
                else .str (String.mk ("admin@goinn.com".data.takeWhile fun c => c != '@')))]),
            ("token", .str "admin@goinn.com")]⟩
    ∧ requireAdmin defaultUsers (some "admin@goinn.com")
      = (if "admin@goinn.com" = "" then
          .error ⟨401, .obj [("success", .bool false),
                             ("error", .str "Token não fornecido")]⟩
        else if (JVal.str "admin").strictEq (.str "admin") = true then
          .ok ⟨.str "admin@goinn.com", .str "admin123", .str "admin", .str "Administrador"⟩
        else .error ⟨403, .obj [("success", .bool false), ("error", .str "Acesso negado")]⟩)
    ∧ listUsers defaultUsers (some "admin@goinn.com") (fixedClock "t")
      = (if "admin@goinn.com" = "" then
          ⟨401, .obj [("success", .bool false), ("error", .str "Token não fornecido")]⟩
        else if (JVal.str "admin").strictEq (.str "admin") = true then
          match userViews (fixedClock "t") defaultUsers 0 with
          | some views => ⟨200, .obj [("success", .bool true), ("data", .arr views [])]⟩
          | none => internalError
        else ⟨403, .obj [("success", .bool false), ("error", .str "Acesso negado")]⟩)
    ∧ (userViews (fixedClock "t") defaultUsers 0).isSome
      = defaultUsers.all fun a => a.nickname.truthy || (localPart a.email).isSome)
    ∧ (login defaultUsers (.str "user@goinn.com") (.str "user123")
      = ⟨200, .obj [("success", .bool true),
            ("user", .obj [("email", .str "user@goinn.com"), ("role", .str "user"),
              ("nickname", if (JVal.str "Usuário").truthy then .str "Usuário"
                else .str (String.mk ("user@goinn.com".data.takeWhile fun c => c != '@')))]),
            ("token", .str "user@goinn.com")]⟩
    ∧ requireAdmin defaultUsers (some "user@goinn.com")
      = (if "user@goinn.com" = "" then
          .error ⟨401, .obj [("success", .bool false),
                             ("error", .str "Token não fornecido")]⟩
        else if (JVal.str "user").strictEq (.str "admin") = true then
          .ok ⟨.str "user@goinn.com", .str "user123", .str "user", .str "Usuário"⟩
        else .error ⟨403, .obj [("success", .bool false), ("error", .str "Acesso negado")]⟩)
    ∧ listUsers defaultUsers (some "user@goinn.com") (fixedClock "t")
      = (if "user@goinn.com" = "" then
          ⟨401, .obj [("success", .bool false), ("error", .str "Token não fornecido")]⟩
        else if (JVal.str "user").strictEq (.str "admin") = true then
          match userViews (fixedClock "t") defaultUsers 0 with
          | some views => ⟨200, .obj [("success", .bool true), ("data", .arr views [])]⟩
          | none => internalError
        else ⟨403, .obj [("success", .bool false), ("error", .str "Acesso negado")]⟩)
    ∧ (userViews (fixedClock "t") defaultUsers 0).isSome
      = defaultUsers.all fun a => a.nickname.truthy || (localPart a.email).isSome)
    ∧ (listUsers defaultUsers (some "admin@goinn.com") (fixedClock "t")).status = 200
    ∧ listUsers defaultUsers (some "user@goinn.com") (fixedClock "t")
      = ⟨403, .obj [("success", .bool false), ("error", .str "Acesso negado")]⟩ :=
  ⟨login_token_on_admin_route defaultUsers
      ⟨.str "admin@goinn.com", .str "admin123", .str "admin", .str "Administrador"⟩
      "admin@goinn.com" (.str "admin123") (fixedClock "t") (by decide) (by decide) rfl
      (by decide),
   login_token_on_admin_route defaultUsers
      ⟨.str "user@goinn.com", .str "user123", .str "user", .str "Usuário"⟩
      "user@goinn.com" (.str "user123") (fixedClock "t") (by decide) (by decide) rfl
      (by decide),
   by decide, by decide⟩

/-- Counterexample to C7 as stated, in a state two requests reach from the
default users (a registration with the number 5 as e-mail, then an
administrator's nickname update to `""`): the e-mails are pairwise distinct,
yet the login of the new user with its own e-mail and password is answered
500, and `GET /api/admin/users` with the token of the default administrator
is answered 500 as well, because `email.split` throws on the number. -/
theorem nickname_fallback_breaks_login_and_admin_route :
    (register defaultUsers (.num 5) (.str "x") (.str "n")).1.status = 200
    ∧ (updateNickname (register defaultUsers (.num 5) (.str "x") (.str "n")).2
        (some "admin@goinn.com") (.num 5) (.str "")).1.status = 200
    ∧ brokenNicknameUsers = defaultUsers ++ [⟨.num 5, .str "x", .str "user", .str ""⟩]
    ∧ brokenNicknameUsers.Pairwise (fun a b => a.email.strictEq b.email = false)
    ∧ login brokenNicknameUsers (.num 5) (.str "x") = internalError
    ∧ login brokenNicknameUsers (.str "admin@goinn.com") (.str "admin123")
      = ⟨200, .obj [("success", .bool true),
            ("user", .obj [("email", .str "admin@goinn.com"), ("role", .str "admin"),
                           ("nickname", .str "Administrador")]),
            ("token", .str "admin@goinn.com")]⟩
    ∧ requireAdmin brokenNicknameUsers (some "admin@goinn.com")
      = .ok ⟨.str "admin@goinn.com", .str "admin123", .str "admin", .str "Administrador"⟩
    ∧ listUsers brokenNicknameUsers (some "admin@goinn.com") (fixedClock "t")
      = internalError :=
  ⟨by decide, by decide, by decide, by decide, by decide, by decide, rfl, by decide⟩

end MockProtheus
